import Mathlib

/-!
Shallow embedding of `src/rslib/src/search/searcher.rs`: the query compiler
that turns a search expression tree into SQL predicate text plus an ordered
list of bound parameters.  Pure string construction is translated directly;
the mutable `SearchContext` of the source becomes explicit state passing and
fallible collaborator calls become `Except` values.
-/

set_option maxHeartbeats 1000000

namespace AnkiSearch

/-- Modelled from the spec: the error type of `crate::err` (not under src/).
The compiler itself only constructs `invalid_input` (§7 class 1); collaborator
calls may fail with an arbitrary error, kept abstract as `other`. -/
inductive AnkiError where
  | invalidInput : String → AnkiError
  | other : String → AnkiError
deriving DecidableEq, Repr

/-- Modelled from the spec: a deck catalog entry from `crate::decks`
(not under src/): `all_decks() -> set of { id, name }` (§6). -/
structure Deck where
  id : Int
  name : String
deriving DecidableEq, Repr

/-- Modelled from the spec: `timing_today() -> { days_elapsed, next_day_boundary }`
(§6); the source reads the fields `days_elapsed` and `next_day_at`. -/
structure SchedTimingToday where
  days_elapsed : Nat
  next_day_at : Int
deriving DecidableEq, Repr

/-- Modelled from the spec: `all_config() -> { current_deck_id }` (§6). -/
structure CollectionConfig where
  current_deck_id : Int
deriving DecidableEq, Repr

/-- Modelled from the spec: a field entry of a note type: `{name, ordinal}` (§6);
the source reads `field.name` and `field.ord`. -/
structure NoteField where
  name : String
  ord : Nat
deriving DecidableEq, Repr

/-- Modelled from the spec: a template entry of a note type: `{name, ordinal}` (§6);
the source reads `tmpl.name` and `tmpl.ord`. -/
structure CardTemplateDef where
  name : String
  ord : Nat
deriving DecidableEq, Repr

/-- Modelled from the spec: a note type from the catalog:
`{ id, fields, templates }` plus a `name` (§6). -/
structure NoteType where
  id : Int
  name : String
  fields : List NoteField
  templates : List CardTemplateDef
deriving DecidableEq, Repr

/-- The collaborators the compiler calls, exactly the interface of spec §6.
Storage fetches are `Except`-valued (a failed fetch aborts compilation);
they return the same snapshot on every call within one compile (§4.3).
`all_note_types` is the `values()` sequence of the note-type map, in its
iteration order.  The numeric queue codes come from `crate::card::CardQueue`
(not under src/); the spec names the buckets without fixing their numbers,
so they are abstract fields here. -/
structure Env where
  timing_today : Except AnkiError SchedTimingToday
  all_decks : Except AnkiError (List Deck)
  all_config : Except AnkiError CollectionConfig
  all_note_types : Except AnkiError (List NoteType)
  matches_wildcard : String → String → Bool
  child_ids : List Deck → String → List Int
  field_checksum : String → Nat
  strip_html_preserving_image_filenames : String → String
  queue_new : Nat
  queue_learn : Nat
  queue_review : Nat
  queue_day_learn : Nat
  queue_sched_buried : Nat
  queue_user_buried : Nat
  queue_suspended : Nat

/-- Modelled from the spec: `crate::decks::get_deck` (not under src/):
looks up a deck by id in the catalog; `none` when the id is absent (§7). -/
def get_deck (decks : List Deck) (id : Int) : Option Deck :=
  decks.find? (fun d => d.id == id)

/-- Modelled from the spec: `TemplateKind` of the external parser (§3):
a card-template reference by ordinal or by wildcarded name. -/
inductive TemplateKind where
  | Ordinal : Nat → TemplateKind
  | Name : String → TemplateKind
deriving DecidableEq, Repr

/-- Modelled from the spec: `PropertyKind` of the external parser (§3).
`Ease` carries an `f32` in the source; it is modelled by an exact rational. -/
inductive PropertyKind where
  | Due : Int → PropertyKind
  | Interval : Nat → PropertyKind
  | Reps : Nat → PropertyKind
  | Lapses : Nat → PropertyKind
  | Ease : ℚ → PropertyKind
deriving DecidableEq, Repr

/-- Modelled from the spec: `StateKind` of the external parser (§3). -/
inductive StateKind where
  | New | Review | Learning | Buried | Suspended | Due
deriving DecidableEq, Repr

/-- Modelled from the spec: the leaf kinds (`SearchNode`) produced by the
external parser (§3), with the payloads the source destructures. -/
inductive SearchNode where
  | UnqualifiedText : String → SearchNode
  | SingleField : String → String → SearchNode
  | AddedInDays : Nat → SearchNode
  | CardTemplate : TemplateKind → SearchNode
  | Deck : String → SearchNode
  | NoteTypeID : Int → SearchNode
  | NoteType : String → SearchNode
  | Rated : Nat → Option Nat → SearchNode
  | Tag : String → SearchNode
  | Duplicates : Int → String → SearchNode
  | State : StateKind → SearchNode
  | Flag : Nat → SearchNode
  | NoteIDs : String → SearchNode
  | CardIDs : String → SearchNode
  | Property : String → PropertyKind → SearchNode
deriving DecidableEq, Repr

/-- Modelled from the spec: the expression tree (`Node`) produced by the
external parser (§3). -/
inductive Node where
  | And : Node
  | Or : Node
  | Not : Node → Node
  | Group : List Node → Node
  | Search : SearchNode → Node
deriving Repr

/-- The state threaded through compilation: the `sql` buffer and the ordered
bound-parameter list (all pushed values are strings in this file). -/
structure SearchContext where
  sql : String
  args : List String
deriving DecidableEq, Repr

/-- `fn ids_to_string`: renders ids as `(a,b,...)`; the tail elements first,
each followed by a comma, then the head element. -/
def ids_to_string {T : Type} [ToString T] (buf : String) (ids : List T) : String :=
  match ids with
  | [] => buf ++ "()"
  | first :: rest =>
    ((rest.foldl (fun b id => b ++ toString id ++ ",") (buf ++ "(")) ++ toString first) ++ ")"

/-- ASCII lower-casing of one character, as done byte-wise by Rust's
`eq_ignore_ascii_case`. -/
def ascii_lower (c : Char) : Char :=
  if 'A' ≤ c ∧ c ≤ 'Z' then Char.ofNat (c.toNat + 32) else c

/-- Rust `str::eq_ignore_ascii_case`. -/
def eq_ignore_ascii_case (a b : String) : Bool :=
  a.data.map ascii_lower == b.data.map ascii_lower

/-- Rust saturating float-to-integer cast `(x) as u32`, on the exact rational
model of `f32`: truncation toward zero, clamped to `[0, 2^32 - 1]`. -/
def rat_as_u32 (q : ℚ) : Nat :=
  if q ≤ 0 then 0 else min ⌊q⌋.toNat 4294967295

/-- `fn write_unqualified`: wraps the text in `%`, emits the two-column LIKE
predicate and pushes the wrapped value twice. -/
def write_unqualified (ctx : SearchContext) (text : String) : SearchContext :=
  let text := "%" ++ text ++ "%"
  { ctx with
      sql := ctx.sql ++ "(n.sfld like ? escape '\\' or n.flds like ? escape '\\')",
      args := ctx.args ++ [text, text] }

/-- `fn write_tag`: `none` tests the empty tag string; otherwise `*` is
replaced by `%` and the value is wrapped in `" %"` and `"% "`. -/
def write_tag (ctx : SearchContext) (text : String) : SearchContext :=
  if text == "none" then
    { ctx with sql := ctx.sql ++ "n.tags = ''" }
  else
    let tag := " %" ++ String.mk (text.data.map (fun c => if c = '*' then '%' else c)) ++ "% "
    { ctx with sql := ctx.sql ++ "n.tags like ?", args := ctx.args ++ [tag] }

/-- `fn write_rated`: cutoff is `next_day_at - 86400 * min days 31`. -/
def write_rated (env : Env) (ctx : SearchContext) (days : Nat) (ease : Option Nat) :
    Except AnkiError SearchContext := do
  let timing ← env.timing_today
  let today_cutoff := timing.next_day_at
  let days : Int := (min days 31 : Nat)
  let target_cutoff := today_cutoff - 86400 * days
  let sql := ctx.sql ++ "c.id in (select cid from revlog where id>" ++ toString target_cutoff
  match ease with
  | some ease => .ok { ctx with sql := sql ++ "and ease=" ++ toString ease ++ ")" }
  | none => .ok { ctx with sql := sql ++ ")" }

/-- `fn write_prop`: property comparisons; the timing is fetched before
dispatching on the kind. -/
def write_prop (env : Env) (ctx : SearchContext) (op : String) (kind : PropertyKind) :
    Except AnkiError SearchContext := do
  let timing ← env.timing_today
  match kind with
  | PropertyKind.Due days =>
    let day : Int := days + (timing.days_elapsed : Int)
    .ok { ctx with sql := ctx.sql ++ "(c.queue in (" ++ toString env.queue_review ++ ","
            ++ toString env.queue_day_learn ++ ") and due " ++ op ++ " " ++ toString day ++ ")" }
  | PropertyKind.Interval ivl =>
    .ok { ctx with sql := ctx.sql ++ "ivl " ++ op ++ " " ++ toString ivl }
  | PropertyKind.Reps reps =>
    .ok { ctx with sql := ctx.sql ++ "reps " ++ op ++ " " ++ toString reps }
  | PropertyKind.Lapses days =>
    .ok { ctx with sql := ctx.sql ++ "lapses " ++ op ++ " " ++ toString days }
  | PropertyKind.Ease ease =>
    .ok { ctx with sql := ctx.sql ++ "ease " ++ op ++ " " ++ toString (rat_as_u32 (ease * 1000)) }

/-- `fn write_state`: scheduling-state predicates. -/
def write_state (env : Env) (ctx : SearchContext) (state : StateKind) :
    Except AnkiError SearchContext := do
  let timing ← env.timing_today
  match state with
  | StateKind.New => .ok { ctx with sql := ctx.sql ++ "c.queue = " ++ toString env.queue_new }
  | StateKind.Review => .ok { ctx with sql := ctx.sql ++ "c.queue = " ++ toString env.queue_review }
  | StateKind.Learning =>
    .ok { ctx with sql := ctx.sql ++ "c.queue in (" ++ toString env.queue_learn ++ ","
            ++ toString env.queue_day_learn ++ ")" }
  | StateKind.Buried =>
    .ok { ctx with sql := ctx.sql ++ "c.queue in (" ++ toString env.queue_sched_buried ++ ","
            ++ toString env.queue_user_buried ++ ")" }
  | StateKind.Suspended =>
    .ok { ctx with sql := ctx.sql ++ "c.queue = " ++ toString env.queue_suspended }
  | StateKind.Due =>
    .ok { ctx with sql := ctx.sql ++ "\n(c.queue in (" ++ toString env.queue_review ++ ","
            ++ toString env.queue_day_learn ++ ") and c.due <= " ++ toString timing.days_elapsed
            ++ ") or\n(c.queue = " ++ toString env.queue_learn ++ " and c.due <= "
            ++ toString timing.next_day_at ++ ")" }

/-- `fn write_deck`: sentinels `*` and `filtered`, the `current`-deck path
(which can fail with invalid input), and the wildcard path. -/
def write_deck (env : Env) (ctx : SearchContext) (deck : String) :
    Except AnkiError SearchContext :=
  if deck = "*" then .ok { ctx with sql := ctx.sql ++ "true" }
  else if deck = "filtered" then .ok { ctx with sql := ctx.sql ++ "c.odid > 0" }
  else do
    let all_decks ← env.all_decks
    let dids_with_children ←
      if deck == "current" then do
        let config ← env.all_config
        match get_deck all_decks config.current_deck_id with
        | none => Except.error (AnkiError.invalidInput "invalid current deck")
        | some current =>
          Except.ok (config.current_deck_id :: env.child_ids all_decks current.name)
      else
        Except.ok ((all_decks.filter (fun d => env.matches_wildcard d.name deck)).foldl
          (fun acc d => acc ++ (d.id :: env.child_ids all_decks d.name)) [])
    .ok { ctx with sql := ids_to_string (ctx.sql ++ "c.did in ") dids_with_children }

/-- The `id_ords` vector built by the loop in `write_template`. -/
def id_ords_of (env : Env) (note_types : List NoteType) (name : String) : List String :=
  note_types.foldl (fun acc nt =>
    acc ++ (nt.templates.filter (fun tmpl => env.matches_wildcard tmpl.name name)).map
      (fun tmpl => "(n.mid = " ++ toString nt.id ++ " and c.ord = " ++ toString tmpl.ord ++ ")"))
    []

/-- `fn write_template`: by ordinal, or the wildcard-name search over every
template of every note type; zero matches give the literal `false`. -/
def write_template (env : Env) (ctx : SearchContext) (template : TemplateKind) :
    Except AnkiError SearchContext :=
  match template with
  | TemplateKind.Ordinal n => .ok { ctx with sql := ctx.sql ++ "c.ord = " ++ toString n }
  | TemplateKind.Name name => do
    let note_types ← env.all_note_types
    let id_ords := id_ords_of env note_types name
    if id_ords.isEmpty then
      .ok { ctx with sql := ctx.sql ++ "false" }
    else
      .ok { ctx with sql := ctx.sql ++ "(" ++ String.intercalate "," id_ords ++ ")" }

/-- `fn write_note_type`: wildcard match over note-type names, rendered as an
`in` list (possibly empty). -/
def write_note_type (env : Env) (ctx : SearchContext) (nt_name : String) :
    Except AnkiError SearchContext := do
  let note_types ← env.all_note_types
  let ntids := (note_types.filter (fun nt => env.matches_wildcard nt.name nt_name)).map
    (fun nt => nt.id)
  .ok { ctx with sql := ids_to_string (ctx.sql ++ "n.mid in ") ntids }

/-- The `field_map` vector built by the loop in `write_single_field`. -/
def field_map_of (note_types : List NoteType) (field_name : String) : List (Int × Nat) :=
  note_types.foldl (fun acc nt =>
    acc ++ (nt.fields.filter (fun f => eq_ignore_ascii_case f.name field_name)).map
      (fun f => (nt.id, f.ord))) []

/-- `fn write_single_field`: collects `(note-type id, field ordinal)` pairs whose
field name matches case-insensitively; zero matches give the literal `false`,
otherwise one value is pushed and every branch references it as `?N` where
`N` is its 1-based position in the argument list. -/
def write_single_field (env : Env) (ctx : SearchContext) (field_name : String) (val : String) :
    Except AnkiError SearchContext := do
  let note_types ← env.all_note_types
  let field_map := field_map_of note_types field_name
  if field_map.isEmpty then
    .ok { ctx with sql := ctx.sql ++ "false" }
  else
    let ctx := { ctx with sql := ctx.sql ++ "(", args := ctx.args ++ [val] }
    let arg_idx := ctx.args.length
    let ctx := field_map.foldl (fun c p =>
      { c with sql := c.sql ++ "(n.mid = " ++ toString p.1 ++ " and field_at_index(n.flds, "
          ++ toString p.2 ++ ") like ?" ++ toString arg_idx ++ ")" }) ctx
    .ok { ctx with sql := ctx.sql ++ ")" }

/-- `fn write_dupes`: checksum over the markup-stripped text, raw text pushed
as the single parameter.  The emitted text reproduces the source exactly,
including its unbalanced opening parenthesis. -/
def write_dupes (env : Env) (ctx : SearchContext) (ntid : Int) (text : String) : SearchContext :=
  let text_nohtml := env.strip_html_preserving_image_filenames text
  let csum := env.field_checksum text_nohtml
  { ctx with
      sql := ctx.sql ++ "(n.mid = " ++ toString ntid ++ " and n.csum = " ++ toString csum
        ++ " and field_at_index(n.flds, 0) = ?",
      args := ctx.args ++ [text] }

/-- `fn write_search_node_to_sql`: leaf dispatch. -/
def write_search_node_to_sql (env : Env) (ctx : SearchContext) (node : SearchNode) :
    Except AnkiError SearchContext :=
  match node with
  | SearchNode.UnqualifiedText text => .ok (write_unqualified ctx text)
  | SearchNode.SingleField field text => write_single_field env ctx field text
  | SearchNode.AddedInDays days => .ok { ctx with sql := ctx.sql ++ "c.id > " ++ toString days }
  | SearchNode.CardTemplate template => write_template env ctx template
  | SearchNode.Deck deck => write_deck env ctx deck
  | SearchNode.NoteTypeID ntid => .ok { ctx with sql := ctx.sql ++ "n.mid = " ++ toString ntid }
  | SearchNode.NoteType notetype => write_note_type env ctx notetype
  | SearchNode.Rated days ease => write_rated env ctx days ease
  | SearchNode.Tag tag => .ok (write_tag ctx tag)
  | SearchNode.Duplicates note_type_id text => .ok (write_dupes env ctx note_type_id text)
  | SearchNode.State state => write_state env ctx state
  | SearchNode.Flag flag => .ok { ctx with sql := ctx.sql ++ "(c.flags & 7) == " ++ toString flag }
  | SearchNode.NoteIDs nids => .ok { ctx with sql := ctx.sql ++ "n.id in (" ++ nids ++ ")" }
  | SearchNode.CardIDs cids => .ok { ctx with sql := ctx.sql ++ "c.id in (" ++ cids ++ ")" }
  | SearchNode.Property operator kind => write_prop env ctx operator kind

mutual

/-- `fn write_node_to_sql`: the tree walker. -/
def write_node_to_sql (env : Env) (ctx : SearchContext) : Node → Except AnkiError SearchContext
  | Node.And => .ok { ctx with sql := ctx.sql ++ " and " }
  | Node.Or => .ok { ctx with sql := ctx.sql ++ " or " }
  | Node.Not node => write_node_to_sql env { ctx with sql := ctx.sql ++ "not " } node
  | Node.Group nodes =>
    match write_node_list env { ctx with sql := ctx.sql ++ "(" } nodes with
    | Except.ok c => .ok { c with sql := c.sql ++ ")" }
    | Except.error e => .error e
  | Node.Search search => write_search_node_to_sql env ctx search

/-- The `for node in nodes` loop inside the `Group` arm. -/
def write_node_list (env : Env) (ctx : SearchContext) : List Node → Except AnkiError SearchContext
  | [] => .ok ctx
  | node :: rest =>
    match write_node_to_sql env ctx node with
    | Except.ok c => write_node_list env c rest
    | Except.error e => .error e

end

/-- `fn node_to_sql`: the entry point, starting from an empty buffer and an
empty parameter list. -/
def node_to_sql (env : Env) (node : Node) : Except AnkiError (String × List String) :=
  match write_node_to_sql env { sql := "", args := [] } node with
  | Except.ok c => .ok (c.sql, c.args)
  | Except.error e => .error e

/-- A concrete environment with empty catalogs, used to evaluate the compiler
on closed inputs. -/
def envA : Env where
  timing_today := .ok ⟨5, 10000000⟩
  all_decks := .ok []
  all_config := .ok ⟨1⟩
  all_note_types := .ok []
  matches_wildcard := fun _ _ => false
  child_ids := fun _ _ => []
  field_checksum := fun s => s.length
  strip_html_preserving_image_filenames := fun s => s
  queue_new := 0
  queue_learn := 1
  queue_review := 2
  queue_day_learn := 3
  queue_sched_buried := 254
  queue_user_buried := 253
  queue_suspended := 255

/-- A concrete environment whose catalog holds two note types that both have
a field named `Front`. -/
def envTwoFront : Env :=
  { envA with
      all_note_types := .ok
        [⟨1, "Basic", [⟨"Front", 0⟩], []⟩, ⟨2, "Reversed", [⟨"Front", 0⟩], []⟩] }

/-- Comma-joined rendering of a list of already-rendered elements, the body of
a SQL tuple literal. -/
def commaJoin : List String → String
  | [] => ""
  | [x] => x
  | x :: y :: xs => x ++ "," ++ commaJoin (y :: xs)

theorem commaJoin_cons_of_ne_nil (x : String) (xs : List String) (h : xs ≠ []) :
    commaJoin (x :: xs) = x ++ "," ++ commaJoin xs := by
  cases xs with
  | nil => exact absurd rfl h
  | cons y ys => rfl

theorem ids_to_string_foldl_aux {T : Type} [ToString T] (t : List T) (b last : String) :
    (t.foldl (fun b id => b ++ toString id ++ ",") b) ++ last =
      b ++ commaJoin (t.map toString ++ [last]) := by
  induction t generalizing b with
  | nil => rfl
  | cons h tt ih =>
    have hne : tt.map toString ++ [last] ≠ [] := by simp
    simp only [List.foldl_cons, List.map_cons, List.cons_append]
    rw [ih, commaJoin_cons_of_ne_nil _ _ hne]
    simp [String.append_assoc]

/-- C8: `ids_to_string` renders the empty list as `()`, `[7]` as `(7)`, and in
general a parenthesized comma-separated tuple of the rotation
`tail ++ [head]` of the input — a permutation of the input, so each element
appears exactly once; `[7,6]` gives `(6,7)` and `[7,6,5]` gives `(6,5,7)`. -/
theorem ids_to_string_spec :
    (∀ (ids : List Int) (buf : String),
      ids_to_string buf ids =
          buf ++ "(" ++ commaJoin ((ids.drop 1 ++ ids.take 1).map toString) ++ ")"
        ∧ (ids.drop 1 ++ ids.take 1).Perm ids)
    ∧ ids_to_string "" ([] : List Int) = "()"
    ∧ ids_to_string "" ([7] : List Int) = "(7)"
    ∧ ids_to_string "" ([7, 6] : List Int) = "(6,7)"
    ∧ ids_to_string "" ([7, 6, 5] : List Int) = "(6,5,7)" := by
  refine ⟨fun ids buf => ⟨?_, ?_⟩, rfl, rfl, rfl, rfl⟩
  · cases ids with
    | nil =>
      show buf ++ "()" = (buf ++ "(") ++ _ ++ ")"
      rw [String.append_assoc, String.append_assoc]
      rfl
    | cons first rest =>
      show ((rest.foldl (fun b id => b ++ toString id ++ ",") (buf ++ "(")) ++ toString first)
            ++ ")" = _
      rw [ids_to_string_foldl_aux rest (buf ++ "(") (toString first)]
      simp [String.append_assoc]
  · have h : (ids.drop 1 ++ ids.take 1).Perm (ids.take 1 ++ ids.drop 1) :=
      List.perm_append_comm
    rwa [ids.take_append_drop 1] at h

/-- C2 counterexample: compiling `Tag "foo*bar"` pushes the single bound value
`" %foo%bar% "`, which is not the value `" foo%bar "` stated by the claim. -/
theorem tag_param_counterexample :
    node_to_sql envA (Node.Search (SearchNode.Tag "foo*bar")) =
      .ok ("n.tags like ?", [" %foo%bar% "])
    ∧ (" %foo%bar% " : String) ≠ " foo%bar " := by
  exact ⟨rfl, by decide⟩

/-- C2 (amended): `Tag "none"` emits the empty-string tag equality and pushes
no parameters; `Tag "foo*bar"` pushes exactly one parameter, the tag text
with `*` replaced by `%`, wrapped first in `%` and then in single spaces:
`" %foo%bar% "`. -/
theorem tag_compile_spec :
    (∀ (env : Env) (ctx : SearchContext),
      write_node_to_sql env ctx (Node.Search (SearchNode.Tag "none")) =
        .ok { ctx with sql := ctx.sql ++ "n.tags = ''" })
    ∧ ∀ (env : Env) (ctx : SearchContext),
      write_node_to_sql env ctx (Node.Search (SearchNode.Tag "foo*bar")) =
        .ok { ctx with sql := ctx.sql ++ "n.tags like ?",
                       args := ctx.args ++ [" %foo%bar% "] } := by
  constructor
  · intro env ctx
    rfl
  · intro env ctx
    rfl

/-- C10: an unqualified-text leaf always emits the two-column LIKE predicate
declaring the escape character, and pushes exactly two identical values equal
to `%` ++ text ++ `%`, for every text — in particular no escaping is applied
to `%`, `_` or `\` already present in the text. -/
theorem unqualified_compile_spec (env : Env) (ctx : SearchContext) (text : String) :
    write_node_to_sql env ctx (Node.Search (SearchNode.UnqualifiedText text)) =
      .ok { ctx with
              sql := ctx.sql ++ "(n.sfld like ? escape '\\' or n.flds like ? escape '\\')",
              args := ctx.args ++ ["%" ++ text ++ "%", "%" ++ text ++ "%"] } := rfl

/-- C3: for every environment, note-type id and text, the duplicates leaf
emits the note-type equality, the checksum equality over the markup-stripped
text, and the first-field equality with the raw text as its single parameter —
but the emitted fragment opens two parentheses and closes only one: the
conjunction is left unbalanced, as the evaluation at `ntid = 7`, `text = "ab"`
shows (`envA` strips nothing and checksums by length). -/
theorem dupes_compile_eval :
    (∀ (env : Env) (ctx : SearchContext) (ntid : Int) (text : String),
      write_node_to_sql env ctx (Node.Search (SearchNode.Duplicates ntid text)) =
        .ok { ctx with
                sql := ctx.sql ++ "(n.mid = " ++ toString ntid ++ " and n.csum = "
                  ++ toString (env.field_checksum (env.strip_html_preserving_image_filenames text))
                  ++ " and field_at_index(n.flds, 0) = ?",
                args := ctx.args ++ [text] })
    ∧ node_to_sql envA (Node.Search (SearchNode.Duplicates 7 "ab")) =
        .ok ("(n.mid = 7 and n.csum = 2 and field_at_index(n.flds, 0) = ?", ["ab"])
    ∧ ("(n.mid = 7 and n.csum = 2 and field_at_index(n.flds, 0) = ?").data.count '(' = 2
    ∧ ("(n.mid = 7 and n.csum = 2 and field_at_index(n.flds, 0) = ?").data.count ')' = 1 := by
  exact ⟨fun env ctx ntid text => rfl, rfl, by decide, by decide⟩

/-- C4: the rated leaf pushes no parameters and uses the cutoff
`next_day_at - 86400 * min days 31`; with an ease filter, the text `and ease=`
is appended directly after the cutoff literal with no separating space, so
`Rated 40 (some 3)` under `envA` (whose `next_day_at` is `10000000`) produces
`...id>7321600and ease=3)`; `Rated 40 none` produces `...id>7321600)`,
the 31-day cutoff `10000000 - 86400 * 31 = 7321600`, not a 40-day one. -/
theorem rated_compile_eval :
    (∀ (env : Env) (ctx : SearchContext) (days : Nat) (ease : Option Nat),
      write_node_to_sql env ctx (Node.Search (SearchNode.Rated days ease)) =
        Except.map (fun timing =>
          { ctx with
              sql := match ease with
                | some e => ctx.sql ++ "c.id in (select cid from revlog where id>"
                    ++ toString (timing.next_day_at - 86400 * ((min days 31 : Nat) : Int))
                    ++ "and ease=" ++ toString e ++ ")"
                | none => ctx.sql ++ "c.id in (select cid from revlog where id>"
                    ++ toString (timing.next_day_at - 86400 * ((min days 31 : Nat) : Int))
                    ++ ")" }) env.timing_today)
    ∧ node_to_sql envA (Node.Search (SearchNode.Rated 40 (some 3))) =
        .ok ("c.id in (select cid from revlog where id>7321600and ease=3)", [])
    ∧ node_to_sql envA (Node.Search (SearchNode.Rated 40 none)) =
        .ok ("c.id in (select cid from revlog where id>7321600)", [])
    ∧ min (40 : Nat) 31 = 31
    ∧ (10000000 : Int) - 86400 * 31 = 7321600 := by
  refine ⟨fun env ctx days ease => ?_, rfl, rfl, by decide, by decide⟩
  show write_rated env ctx days ease = _
  unfold write_rated
  cases env.timing_today with
  | error e => cases ease <;> rfl
  | ok t => cases ease <;> rfl

/-- C9 counterexample: for the ease value `16389/8192` (an exact `f32` value,
`≈ 2.0006`, whose product with `1000` is also exact), the compiled comparison
literal is `2000`, the truncation of `e * 1000`, while `round (e * 1000)`
is `2001` — so the emitted literal is not `round (e * 1000)`. -/
theorem ease_round_counterexample :
    node_to_sql envA (Node.Search (SearchNode.Property ">"
        (PropertyKind.Ease (16389/8192)))) = .ok ("ease > 2000", [])
    ∧ round ((16389 : ℚ)/8192 * 1000) = (2001 : ℤ)
    ∧ (2000 : ℤ) ≠ 2001 := by
  have hfloor : ⌊((16389 : ℚ)/8192 * 1000)⌋ = (2000 : ℤ) := by
    rw [Int.floor_eq_iff]
    norm_num
  have h1 : rat_as_u32 ((16389 : ℚ)/8192 * 1000) = 2000 := by
    unfold rat_as_u32
    rw [if_neg (by norm_num), hfloor]
    rfl
  refine ⟨?_, ?_, by decide⟩
  · have hsql : node_to_sql envA (Node.Search (SearchNode.Property ">"
        (PropertyKind.Ease (16389/8192)))) =
        .ok ("ease > " ++ Nat.repr (rat_as_u32 ((16389 : ℚ)/8192 * 1000)), []) := rfl
    rw [hsql, h1]
    rfl
  · rw [round_eq, Int.floor_eq_iff]
    norm_num

/-- C9 (amended): the ease property emits `ease {op} N` with no parameters,
where `N` is the saturating-u32 truncation toward zero of `e * 1000` (the
`as u32` cast), not its rounding; for `Ease 2.5` the literal is `2500`. -/
theorem ease_prop_compile_spec :
    (∀ (env : Env) (ctx : SearchContext) (op : String) (e : ℚ),
      write_node_to_sql env ctx (Node.Search (SearchNode.Property op (PropertyKind.Ease e))) =
        Except.map (fun _ =>
          { ctx with sql := ctx.sql ++ "ease " ++ op ++ " "
              ++ toString (rat_as_u32 (e * 1000)) }) env.timing_today)
    ∧ rat_as_u32 ((5/2 : ℚ) * 1000) = 2500
    ∧ node_to_sql envA (Node.Search (SearchNode.Property ">" (PropertyKind.Ease (5/2)))) =
        .ok ("ease > 2500", []) := by
  have hfloor : ⌊((5/2 : ℚ) * 1000)⌋ = (2500 : ℤ) := by
    rw [Int.floor_eq_iff]
    norm_num
  have h2 : rat_as_u32 ((5/2 : ℚ) * 1000) = 2500 := by
    unfold rat_as_u32
    rw [if_neg (by norm_num), hfloor]
    rfl
  refine ⟨fun env ctx op e => ?_, h2, ?_⟩
  · show write_prop env ctx op (PropertyKind.Ease e) = _
    unfold write_prop
    cases env.timing_today with
    | error e => rfl
    | ok t => rfl
  · have hsql : node_to_sql envA (Node.Search (SearchNode.Property ">"
        (PropertyKind.Ease (5/2)))) =
        .ok ("ease > " ++ Nat.repr (rat_as_u32 ((5/2 : ℚ) * 1000)), []) := rfl
    rw [hsql, h2]
    rfl

theorem except_ok_bind {ε α β : Type} (a : α) (f : α → Except ε β) :
    (Except.ok a : Except ε α) >>= f = f a := rfl

theorem foldl_append_eq_self {α β : Type} (l : List α) (g : α → List β)
    (h : ∀ x ∈ l, g x = []) : ∀ acc : List β, l.foldl (fun acc x => acc ++ g x) acc = acc := by
  induction l with
  | nil => intro acc; rfl
  | cons a t ih =>
    intro acc
    have ha : g a = [] := h a (List.mem_cons_self a t)
    simp only [List.foldl_cons, ha, List.append_nil]
    exact ih (fun x hx => h x (List.mem_cons_of_mem a hx)) acc

/-- C5: a `SingleField`, `Template::Name`, `NoteType` or (non-sentinel) `Deck`
leaf whose name or pattern matches nothing in the catalog compiles without
error to an always-false predicate: the literal `false` for the first two,
and a membership test in the empty tuple (`n.mid in ()`, `c.did in ()`) for
the last two — regardless of how many candidate entries the catalog holds. -/
theorem empty_match_always_false (env : Env) (ctx : SearchContext) :
    (∀ (field val : String) (nts : List NoteType), env.all_note_types = .ok nts →
      (∀ nt ∈ nts, ∀ f ∈ nt.fields, eq_ignore_ascii_case f.name field = false) →
      write_node_to_sql env ctx (Node.Search (SearchNode.SingleField field val)) =
        .ok { ctx with sql := ctx.sql ++ "false" })
    ∧ (∀ (name : String) (nts : List NoteType), env.all_note_types = .ok nts →
      (∀ nt ∈ nts, ∀ tmpl ∈ nt.templates, env.matches_wildcard tmpl.name name = false) →
      write_node_to_sql env ctx (Node.Search (SearchNode.CardTemplate (TemplateKind.Name name))) =
        .ok { ctx with sql := ctx.sql ++ "false" })
    ∧ (∀ (name : String) (nts : List NoteType), env.all_note_types = .ok nts →
      (∀ nt ∈ nts, env.matches_wildcard nt.name name = false) →
      write_node_to_sql env ctx (Node.Search (SearchNode.NoteType name)) =
        .ok { ctx with sql := ctx.sql ++ "n.mid in ()" })
    ∧ (∀ (pat : String) (ds : List Deck), env.all_decks = .ok ds →
      pat ≠ "*" → pat ≠ "filtered" → pat ≠ "current" →
      (∀ d ∈ ds, env.matches_wildcard d.name pat = false) →
      write_node_to_sql env ctx (Node.Search (SearchNode.Deck pat)) =
        .ok { ctx with sql := ctx.sql ++ "c.did in ()" }) := by
  refine ⟨?_, ?_, ?_, ?_⟩
  · intro field val nts hn hf
    show write_single_field env ctx field val = _
    unfold write_single_field
    rw [hn, except_ok_bind]
    have hmap : field_map_of nts field = [] := by
      refine foldl_append_eq_self _ _ (fun nt hnt => ?_) []
      rw [List.filter_eq_nil_iff.mpr (fun f hfm => by simp [hf nt hnt f hfm]), List.map_nil]
    rw [hmap]
    rfl
  · intro name nts hn hf
    show write_template env ctx (TemplateKind.Name name) = _
    unfold write_template
    dsimp only
    rw [hn, except_ok_bind]
    have hmap : id_ords_of env nts name = [] := by
      refine foldl_append_eq_self _ _ (fun nt hnt => ?_) []
      rw [List.filter_eq_nil_iff.mpr (fun tmpl htm => by simp [hf nt hnt tmpl htm]), List.map_nil]
    rw [hmap]
    rfl
  · intro name nts hn hf
    show write_note_type env ctx name = _
    unfold write_note_type
    rw [hn, except_ok_bind]
    rw [List.filter_eq_nil_iff.mpr (fun nt hnt => by simp [hf nt hnt]), List.map_nil]
    show Except.ok { ctx with sql := (ctx.sql ++ "n.mid in ") ++ "()" } = _
    rw [String.append_assoc]
    rfl
  · intro pat ds hd h1 h2 h3 hf
    show write_deck env ctx pat = _
    unfold write_deck
    rw [if_neg h1, if_neg h2, hd, except_ok_bind,
      if_neg (by simp [h3] : ¬((pat == "current") = true)), except_ok_bind]
    rw [List.filter_eq_nil_iff.mpr (fun d hdm => by simp [hf d hdm])]
    show Except.ok { ctx with sql := (ctx.sql ++ "c.did in ") ++ "()" } = _
    rw [String.append_assoc]
    rfl

/-- Witness for C5 at a concrete environment with empty catalogs. -/
theorem empty_match_always_false_witness :
    write_node_to_sql envA ⟨"", []⟩ (Node.Search (SearchNode.SingleField "Front" "v")) =
      .ok ⟨"false", []⟩
    ∧ write_node_to_sql envA ⟨"", []⟩
        (Node.Search (SearchNode.CardTemplate (TemplateKind.Name "Card 1"))) =
      .ok ⟨"false", []⟩
    ∧ write_node_to_sql envA ⟨"", []⟩ (Node.Search (SearchNode.NoteType "Basic")) =
      .ok ⟨"n.mid in ()", []⟩
    ∧ write_node_to_sql envA ⟨"", []⟩ (Node.Search (SearchNode.Deck "Spanish")) =
      .ok ⟨"c.did in ()", []⟩ := by
  have h := empty_match_always_false envA ⟨"", []⟩
  refine ⟨?_, ?_, ?_, ?_⟩
  · exact h.1 "Front" "v" [] rfl (by intro nt hnt; cases hnt)
  · exact h.2.1 "Card 1" [] rfl (by intro nt hnt; cases hnt)
  · exact h.2.2.1 "Basic" [] rfl (by intro nt hnt; cases hnt)
  · exact h.2.2.2 "Spanish" [] rfl (by decide) (by decide) (by decide)
      (by intro d hdm; cases hdm)

theorem except_error_bind {ε α β : Type} (e : ε) (f : α → Except ε β) :
    (Except.error e : Except ε α) >>= f = .error e := rfl

mutual

/-- Whether a tree contains a `Deck "current"` leaf. -/
def hasCurrentDeck : Node → Bool
  | Node.Not n => hasCurrentDeck n
  | Node.Group ns => hasCurrentDeckList ns
  | Node.Search (SearchNode.Deck d) => d == "current"
  | _ => false

/-- List form of `hasCurrentDeck`. -/
def hasCurrentDeckList : List Node → Bool
  | [] => false
  | n :: rest => hasCurrentDeck n || hasCurrentDeckList rest

end

mutual

/-- When every collaborator fetch succeeds, compiling a tree free of
`Deck "current"` leaves always succeeds. -/
theorem write_node_total (env : Env) (ds : List Deck) (cfg : CollectionConfig)
    (nts : List NoteType) (t : SchedTimingToday) (hd : env.all_decks = Except.ok ds)
    (hcf : env.all_config = Except.ok cfg) (hn : env.all_note_types = Except.ok nts)
    (ht : env.timing_today = Except.ok t) :
    ∀ (node : Node) (ctx : SearchContext),
      hasCurrentDeck node = false → ∃ c, write_node_to_sql env ctx node = .ok c
  | Node.And, _, _ => ⟨_, rfl⟩
  | Node.Or, _, _ => ⟨_, rfl⟩
  | Node.Not n, ctx, h =>
    write_node_total env ds cfg nts t hd hcf hn ht n { ctx with sql := ctx.sql ++ "not " } h
  | Node.Group ns, ctx, h => by
    obtain ⟨c, hc'⟩ := write_node_list_total env ds cfg nts t hd hcf hn ht ns
      { ctx with sql := ctx.sql ++ "(" } h
    refine ⟨{ c with sql := c.sql ++ ")" }, ?_⟩
    show (match write_node_list env { ctx with sql := ctx.sql ++ "(" } ns with
      | Except.ok c => Except.ok { c with sql := c.sql ++ ")" }
      | Except.error e => Except.error e) = _
    rw [hc']
  | Node.Search s, ctx, h => by
    cases s with
    | UnqualifiedText text => exact ⟨_, rfl⟩
    | SingleField field val =>
      show ∃ c, write_single_field env ctx field val = .ok c
      unfold write_single_field
      rw [hn, except_ok_bind]
      dsimp only
      split
      · exact ⟨_, rfl⟩
      · exact ⟨_, rfl⟩
    | AddedInDays days => exact ⟨_, rfl⟩
    | CardTemplate tk =>
      cases tk with
      | Ordinal n => exact ⟨_, rfl⟩
      | Name name =>
        show ∃ c, write_template env ctx (TemplateKind.Name name) = .ok c
        unfold write_template
        dsimp only
        rw [hn, except_ok_bind]
        split
        · exact ⟨_, rfl⟩
        · exact ⟨_, rfl⟩
    | Deck d =>
      show ∃ c, write_deck env ctx d = .ok c
      have hne : (d == "current") = false := h
      unfold write_deck
      split
      · exact ⟨_, rfl⟩
      · split
        · exact ⟨_, rfl⟩
        · rw [hd, except_ok_bind, if_neg (by rw [hne]; exact Bool.false_ne_true),
            except_ok_bind]
          exact ⟨_, rfl⟩
    | NoteTypeID ntid => exact ⟨_, rfl⟩
    | NoteType name =>
      show ∃ c, write_note_type env ctx name = .ok c
      unfold write_note_type
      rw [hn, except_ok_bind]
      exact ⟨_, rfl⟩
    | Rated days ease =>
      show ∃ c, write_rated env ctx days ease = .ok c
      unfold write_rated
      rw [ht, except_ok_bind]
      cases ease with
      | some e => exact ⟨_, rfl⟩
      | none => exact ⟨_, rfl⟩
    | Tag tag => exact ⟨_, rfl⟩
    | Duplicates ntid text => exact ⟨_, rfl⟩
    | State st =>
      show ∃ c, write_state env ctx st = .ok c
      unfold write_state
      rw [ht, except_ok_bind]
      cases st <;> exact ⟨_, rfl⟩
    | Flag f => exact ⟨_, rfl⟩
    | NoteIDs nids => exact ⟨_, rfl⟩
    | CardIDs cids => exact ⟨_, rfl⟩
    | Property op kind =>
      show ∃ c, write_prop env ctx op kind = .ok c
      unfold write_prop
      rw [ht, except_ok_bind]
      cases kind <;> exact ⟨_, rfl⟩

/-- List form of `write_node_total`. -/
theorem write_node_list_total (env : Env) (ds : List Deck) (cfg : CollectionConfig)
    (nts : List NoteType) (t : SchedTimingToday) (hd : env.all_decks = Except.ok ds)
    (hcf : env.all_config = Except.ok cfg) (hn : env.all_note_types = Except.ok nts)
    (ht : env.timing_today = Except.ok t) :
    ∀ (ns : List Node) (ctx : SearchContext),
      hasCurrentDeckList ns = false → ∃ c, write_node_list env ctx ns = .ok c
  | [], ctx, _ => ⟨ctx, rfl⟩
  | n :: rest, ctx, h => by
    have hsplit : hasCurrentDeck n = false ∧ hasCurrentDeckList rest = false := by
      simpa [hasCurrentDeckList] using h
    obtain ⟨c, hc'⟩ := write_node_total env ds cfg nts t hd hcf hn ht n ctx hsplit.1
    obtain ⟨c2, hc2⟩ := write_node_list_total env ds cfg nts t hd hcf hn ht rest c hsplit.2
    refine ⟨c2, ?_⟩
    show (match write_node_to_sql env ctx n with
      | Except.ok c => write_node_list env c rest
      | Except.error e => Except.error e) = _
    rw [hc']
    exact hc2

end

theorem get_deck_none (ds : List Deck) (cfg : CollectionConfig)
    (habsent : ∀ d ∈ ds, d.id ≠ cfg.current_deck_id) :
    get_deck ds cfg.current_deck_id = none := by
  unfold get_deck
  exact List.find?_eq_none.mpr (fun d hdm => by simpa using habsent d hdm)

theorem write_deck_current_err (env : Env) (ds : List Deck) (cfg : CollectionConfig)
    (hd : env.all_decks = Except.ok ds) (hcf : env.all_config = Except.ok cfg)
    (habsent : ∀ d ∈ ds, d.id ≠ cfg.current_deck_id) (ctx : SearchContext) :
    write_deck env ctx "current" = .error (AnkiError.invalidInput "invalid current deck") := by
  unfold write_deck
  rw [if_neg (by decide), if_neg (by decide), hd, except_ok_bind, if_pos (by rfl),
    hcf, except_ok_bind, get_deck_none ds cfg habsent]
  rfl

mutual

/-- Error propagation: a tree containing a `Deck "current"` leaf compiles to
the invalid-input error when the current deck id is absent. -/
theorem write_node_current_err (env : Env) (ds : List Deck) (cfg : CollectionConfig)
    (nts : List NoteType) (t : SchedTimingToday) (hd : env.all_decks = Except.ok ds)
    (hcf : env.all_config = Except.ok cfg) (hn : env.all_note_types = Except.ok nts)
    (ht : env.timing_today = Except.ok t)
    (habsent : ∀ d ∈ ds, d.id ≠ cfg.current_deck_id) :
    ∀ (node : Node) (ctx : SearchContext),
      hasCurrentDeck node = true →
      write_node_to_sql env ctx node = .error (AnkiError.invalidInput "invalid current deck")
  | Node.And, _, h => by simp [hasCurrentDeck] at h
  | Node.Or, _, h => by simp [hasCurrentDeck] at h
  | Node.Not n, ctx, h =>
    write_node_current_err env ds cfg nts t hd hcf hn ht habsent n
      { ctx with sql := ctx.sql ++ "not " } h
  | Node.Group ns, ctx, h => by
    have hl := write_node_list_current_err env ds cfg nts t hd hcf hn ht habsent ns
      { ctx with sql := ctx.sql ++ "(" } h
    show (match write_node_list env { ctx with sql := ctx.sql ++ "(" } ns with
      | Except.ok c => Except.ok { c with sql := c.sql ++ ")" }
      | Except.error e => Except.error e) = _
    rw [hl]
  | Node.Search s, ctx, h => by
    cases s with
    | Deck d =>
      have hcur : d = "current" := eq_of_beq (h : (d == "current") = true)
      subst hcur
      exact write_deck_current_err env ds cfg hd hcf habsent ctx
    | UnqualifiedText text => simp [hasCurrentDeck] at h
    | SingleField field val => simp [hasCurrentDeck] at h
    | AddedInDays days => simp [hasCurrentDeck] at h
    | CardTemplate tk => simp [hasCurrentDeck] at h
    | NoteTypeID ntid => simp [hasCurrentDeck] at h
    | NoteType name => simp [hasCurrentDeck] at h
    | Rated days ease => simp [hasCurrentDeck] at h
    | Tag tag => simp [hasCurrentDeck] at h
    | Duplicates ntid text => simp [hasCurrentDeck] at h
    | State st => simp [hasCurrentDeck] at h
    | Flag f => simp [hasCurrentDeck] at h
    | NoteIDs nids => simp [hasCurrentDeck] at h
    | CardIDs cids => simp [hasCurrentDeck] at h
    | Property op kind => simp [hasCurrentDeck] at h

/-- List form of `write_node_current_err`. -/
theorem write_node_list_current_err (env : Env) (ds : List Deck) (cfg : CollectionConfig)
    (nts : List NoteType) (t : SchedTimingToday) (hd : env.all_decks = Except.ok ds)
    (hcf : env.all_config = Except.ok cfg) (hn : env.all_note_types = Except.ok nts)
    (ht : env.timing_today = Except.ok t)
    (habsent : ∀ d ∈ ds, d.id ≠ cfg.current_deck_id) :
    ∀ (ns : List Node) (ctx : SearchContext),
      hasCurrentDeckList ns = true →
      write_node_list env ctx ns = .error (AnkiError.invalidInput "invalid current deck")
  | [], _, h => by simp [hasCurrentDeckList] at h
  | n :: rest, ctx, h => by
    cases hb : hasCurrentDeck n with
    | true =>
      have he := write_node_current_err env ds cfg nts t hd hcf hn ht habsent n ctx hb
      show (match write_node_to_sql env ctx n with
        | Except.ok c => write_node_list env c rest
        | Except.error e => Except.error e) = _
      rw [he]
    | false =>
      have h2 : hasCurrentDeckList rest = true := by
        simp only [hasCurrentDeckList, hb, Bool.false_or] at h
        exact h
      obtain ⟨c, hc'⟩ := write_node_total env ds cfg nts t hd hcf hn ht n ctx hb
      have hr := write_node_list_current_err env ds cfg nts t hd hcf hn ht habsent rest c h2
      show (match write_node_to_sql env ctx n with
        | Except.ok c => write_node_list env c rest
        | Except.error e => Except.error e) = _
      rw [hc']
      exact hr

end

/-- C6: if the tree contains a `Deck "current"` leaf and the configured
current deck id is absent from the deck catalog (while all catalog fetches
themselves succeed), the whole compilation returns the invalid-input error
`"invalid current deck"` — an `Except.error`, so no predicate/parameter pair
is produced. -/
theorem current_deck_missing_aborts (env : Env) (node : Node) (ctx : SearchContext)
    (ds : List Deck) (cfg : CollectionConfig) (nts : List NoteType) (t : SchedTimingToday)
    (hd : env.all_decks = Except.ok ds) (hcf : env.all_config = Except.ok cfg)
    (hn : env.all_note_types = Except.ok nts) (ht : env.timing_today = Except.ok t)
    (habsent : ∀ d ∈ ds, d.id ≠ cfg.current_deck_id)
    (hcontains : hasCurrentDeck node = true) :
    write_node_to_sql env ctx node = .error (AnkiError.invalidInput "invalid current deck") :=
  write_node_current_err env ds cfg nts t hd hcf hn ht habsent node ctx hcontains

/-- A concrete environment whose catalog has one deck (id 1) while the
configured current deck id is 5. -/
def envB : Env :=
  { envA with all_decks := .ok [⟨1, "Default"⟩], all_config := .ok ⟨5⟩ }

/-- Witness for C6: a conjunction-with-current-deck tree under `envB`. -/
theorem current_deck_missing_aborts_witness :
    write_node_to_sql envB ⟨"", []⟩
        (Node.Group [Node.Search (SearchNode.Tag "a"), Node.And,
          Node.Search (SearchNode.Deck "current")]) =
      .error (AnkiError.invalidInput "invalid current deck") :=
  current_deck_missing_aborts envB _ ⟨"", []⟩ [⟨1, "Default"⟩] ⟨5⟩ [] ⟨5, 10000000⟩
    rfl rfl rfl rfl (by decide) rfl

theorem write_node_group_eq (env : Env) (ctx : SearchContext) (ns : List Node) :
    write_node_to_sql env ctx (Node.Group ns) =
      match write_node_list env { ctx with sql := ctx.sql ++ "(" } ns with
      | Except.ok c => Except.ok { c with sql := c.sql ++ ")" }
      | Except.error e => Except.error e := rfl

theorem write_node_list_cons_eq (env : Env) (ctx : SearchContext) (n : Node) (rest : List Node) :
    write_node_list env ctx (n :: rest) =
      match write_node_to_sql env ctx n with
      | Except.ok c => write_node_list env c rest
      | Except.error e => Except.error e := rfl

theorem foldl_comma_shift {T : Type} [ToString T] :
    ∀ (l : List T) (s b : String),
      l.foldl (fun b id => b ++ toString id ++ ",") (s ++ b) =
        s ++ l.foldl (fun b id => b ++ toString id ++ ",") b
  | [], s, b => rfl
  | x :: t, s, b => by
    show t.foldl (fun b id => b ++ toString id ++ ",") (((s ++ b) ++ toString x) ++ ",") = _
    rw [String.append_assoc s b (toString x), String.append_assoc s (b ++ toString x) ","]
    exact foldl_comma_shift t s ((b ++ toString x) ++ ",")

theorem ids_to_string_shift {T : Type} [ToString T] (s t : String) (ids : List T) :
    ids_to_string (s ++ t) ids = s ++ ids_to_string t ids := by
  cases ids with
  | nil =>
    show (s ++ t) ++ "()" = s ++ (t ++ "()")
    rw [String.append_assoc]
  | cons first rest =>
    show ((rest.foldl (fun b id => b ++ toString id ++ ",") ((s ++ t) ++ "(")) ++ toString first)
        ++ ")" = _
    rw [String.append_assoc s t "(", foldl_comma_shift rest s (t ++ "(")]
    simp [ids_to_string, String.append_assoc]

/-- One branch of the single-field OR expansion, referencing parameter `k`. -/
def sfBranch (k : Nat) (p : Int × Nat) : String :=
  "(n.mid = " ++ (toString p.1 ++ (" and field_at_index(n.flds, "
    ++ (toString p.2 ++ (") like ?" ++ (toString k ++ ")")))))

/-- Concatenation of the single-field branches, in order. -/
def sfBranches (k : Nat) : List (Int × Nat) → String
  | [] => ""
  | p :: t => sfBranch k p ++ sfBranches k t

theorem single_field_foldl (k : Nat) :
    ∀ (l : List (Int × Nat)) (c : SearchContext),
      l.foldl (fun c p =>
        { c with sql := c.sql ++ "(n.mid = " ++ toString p.1
            ++ " and field_at_index(n.flds, " ++ toString p.2 ++ ") like ?"
            ++ toString k ++ ")" }) c =
      ⟨c.sql ++ sfBranches k l, c.args⟩
  | [], c => by
    cases c with
    | mk sql args => simp [sfBranches]
  | p :: t, c => by
    rw [List.foldl_cons, single_field_foldl k t]
    simp [sfBranches, sfBranch, String.append_assoc]

mutual

/-- Frame property: compiling from a buffer `s` yields the same appended
fragment and the same parameters as compiling from the empty buffer with the
same starting parameter list. -/
theorem write_node_frame (env : Env) : ∀ (node : Node) (s : String) (a : List String),
    write_node_to_sql env ⟨s, a⟩ node =
      Except.map (fun c => ⟨s ++ c.sql, c.args⟩) (write_node_to_sql env ⟨"", a⟩ node)
  | Node.And, s, a => rfl
  | Node.Or, s, a => rfl
  | Node.Not n, s, a => by
    show write_node_to_sql env ⟨s ++ "not ", a⟩ n =
      Except.map (fun c => ⟨s ++ c.sql, c.args⟩) (write_node_to_sql env ⟨"not ", a⟩ n)
    rw [write_node_frame env n (s ++ "not ") a, write_node_frame env n "not " a]
    cases write_node_to_sql env ⟨"", a⟩ n with
    | error e => rfl
    | ok c => simp [Except.map, String.append_assoc]
  | Node.Group ns, s, a => by
    rw [write_node_group_eq, write_node_group_eq]
    dsimp only
    rw [write_node_list_frame env ns (s ++ "(") a, write_node_list_frame env ns ("" ++ "(") a]
    cases write_node_list env ⟨"", a⟩ ns with
    | error e => rfl
    | ok c => simp [Except.map, String.append_assoc]
  | Node.Search sn, s, a => by
    cases sn with
    | UnqualifiedText text => rfl
    | SingleField field val =>
      show write_single_field env ⟨s, a⟩ field val =
        Except.map _ (write_single_field env ⟨"", a⟩ field val)
      unfold write_single_field
      cases env.all_note_types with
      | error e => rfl
      | ok nts =>
        rw [except_ok_bind, except_ok_bind]
        dsimp only
        split
        · rfl
        · show Except.ok _ = Except.ok _
          rw [single_field_foldl, single_field_foldl]
          simp [String.append_assoc]
    | AddedInDays days =>
      show Except.ok _ = Except.ok _
      simp [String.append_assoc]
    | CardTemplate tk =>
      cases tk with
      | Ordinal n =>
        show Except.ok _ = Except.ok _
        simp [String.append_assoc]
      | Name name =>
        show write_template env ⟨s, a⟩ (TemplateKind.Name name) =
          Except.map _ (write_template env ⟨"", a⟩ (TemplateKind.Name name))
        unfold write_template
        dsimp only
        cases env.all_note_types with
        | error e => rfl
        | ok nts =>
          rw [except_ok_bind, except_ok_bind]
          split
          · rfl
          · show Except.ok _ = Except.ok _
            simp [String.append_assoc]
    | Deck d =>
      show write_deck env ⟨s, a⟩ d = Except.map _ (write_deck env ⟨"", a⟩ d)
      unfold write_deck
      split
      · rfl
      · split
        · show Except.ok _ = Except.ok _
          simp [String.append_assoc]
        · cases env.all_decks with
          | error e => rfl
          | ok ds =>
            rw [except_ok_bind, except_ok_bind]
            split
            · cases env.all_config with
              | error e => rfl
              | ok cfg =>
                rw [except_ok_bind, except_ok_bind]
                cases get_deck ds cfg.current_deck_id with
                | none => rfl
                | some current =>
                  show Except.ok _ = Except.ok _
                  rw [ids_to_string_shift]
                  rfl
            · show Except.ok _ = Except.ok _
              rw [ids_to_string_shift]
              rfl
    | NoteTypeID ntid =>
      show Except.ok _ = Except.ok _
      simp [String.append_assoc]
    | NoteType name =>
      show write_note_type env ⟨s, a⟩ name = Except.map _ (write_note_type env ⟨"", a⟩ name)
      unfold write_note_type
      cases env.all_note_types with
      | error e => rfl
      | ok nts =>
        rw [except_ok_bind, except_ok_bind]
        show Except.ok _ = Except.ok _
        rw [ids_to_string_shift]
        rfl
    | Rated days ease =>
      show write_rated env ⟨s, a⟩ days ease = Except.map _ (write_rated env ⟨"", a⟩ days ease)
      unfold write_rated
      cases env.timing_today with
      | error e => rfl
      | ok t =>
        rw [except_ok_bind, except_ok_bind]
        cases ease with
        | some e =>
          show Except.ok _ = Except.ok _
          simp [String.append_assoc]
        | none =>
          show Except.ok _ = Except.ok _
          simp [String.append_assoc]
    | Tag tag =>
      show Except.ok (write_tag ⟨s, a⟩ tag) = Except.map _ (Except.ok (write_tag ⟨"", a⟩ tag))
      unfold write_tag
      split
      · rfl
      · rfl
    | Duplicates ntid text =>
      show Except.ok _ = Except.ok _
      simp [write_dupes, String.append_assoc]
    | State st =>
      show write_state env ⟨s, a⟩ st = Except.map _ (write_state env ⟨"", a⟩ st)
      unfold write_state
      cases env.timing_today with
      | error e => rfl
      | ok t =>
        rw [except_ok_bind, except_ok_bind]
        cases st <;> (show Except.ok _ = Except.ok _; simp [String.append_assoc])
    | Flag f =>
      show Except.ok _ = Except.ok _
      simp [String.append_assoc]
    | NoteIDs nids =>
      show Except.ok _ = Except.ok _
      simp [String.append_assoc]
    | CardIDs cids =>
      show Except.ok _ = Except.ok _
      simp [String.append_assoc]
    | Property op kind =>
      show write_prop env ⟨s, a⟩ op kind = Except.map _ (write_prop env ⟨"", a⟩ op kind)
      unfold write_prop
      cases env.timing_today with
      | error e => rfl
      | ok t =>
        rw [except_ok_bind, except_ok_bind]
        cases kind <;> (show Except.ok _ = Except.ok _; simp [String.append_assoc])

/-- List form of `write_node_frame`. -/
theorem write_node_list_frame (env : Env) : ∀ (ns : List Node) (s : String) (a : List String),
    write_node_list env ⟨s, a⟩ ns =
      Except.map (fun c => ⟨s ++ c.sql, c.args⟩) (write_node_list env ⟨"", a⟩ ns)
  | [], s, a => by
    show Except.ok _ = Except.ok _
    simp
  | n :: rest, s, a => by
    rw [write_node_list_cons_eq, write_node_list_cons_eq, write_node_frame env n s a]
    cases write_node_to_sql env ⟨"", a⟩ n with
    | error e => rfl
    | ok c =>
      cases c with
      | mk csql cargs =>
        show write_node_list env ⟨s ++ csql, cargs⟩ rest =
          Except.map (fun c => ⟨s ++ c.sql, c.args⟩) (write_node_list env ⟨csql, cargs⟩ rest)
        rw [write_node_list_frame env rest (s ++ csql) cargs,
          write_node_list_frame env rest csql cargs]
        cases write_node_list env ⟨"", cargs⟩ rest with
        | error e => rfl
        | ok c2 => simp [Except.map, String.append_assoc]

end

/-- C7 (amended): compiling `Group [A, And, B]` yields exactly
`"(" ++ tA ++ " and " ++ tB ++ ")"` (and with `Or`, `" or "`), where `tA` is
the text of compiling `A` from the empty state and `tB` is the text of
compiling `B` in the parameter state `A` left behind; the children are
concatenated in order inside one pair of parentheses with the literal
connector and no rewriting.  (Verbatim standalone `compile(B)` coincides with
`tB` whenever `A` pushes no parameters or `B` emits no numbered placeholder.) -/
theorem group_connector_concat (env : Env) (A B : Node) (cA cB : SearchContext)
    (hA : write_node_to_sql env ⟨"", []⟩ A = .ok cA)
    (hB : write_node_to_sql env ⟨"", cA.args⟩ B = .ok cB) :
    write_node_to_sql env ⟨"", []⟩ (Node.Group [A, Node.And, B]) =
      .ok ⟨"(" ++ cA.sql ++ " and " ++ cB.sql ++ ")", cB.args⟩
    ∧ write_node_to_sql env ⟨"", []⟩ (Node.Group [A, Node.Or, B]) =
      .ok ⟨"(" ++ cA.sql ++ " or " ++ cB.sql ++ ")", cB.args⟩ := by
  have s1 : write_node_to_sql env ⟨"(", []⟩ A = .ok ⟨"(" ++ cA.sql, cA.args⟩ := by
    rw [write_node_frame env A "(" [], hA]
    rfl
  have key : ∀ (conn : Node) (connfrag : String),
      (∀ (s : String) (a : List String),
        write_node_to_sql env ⟨s, a⟩ conn = .ok ⟨s ++ connfrag, a⟩) →
      write_node_to_sql env ⟨"", []⟩ (Node.Group [A, conn, B]) =
        .ok ⟨"(" ++ cA.sql ++ connfrag ++ cB.sql ++ ")", cB.args⟩ := by
    intro conn connfrag hconn
    have s2 : write_node_to_sql env ⟨"(" ++ cA.sql ++ connfrag, cA.args⟩ B
        = .ok ⟨"(" ++ cA.sql ++ connfrag ++ cB.sql, cB.args⟩ := by
      rw [write_node_frame env B ("(" ++ cA.sql ++ connfrag) cA.args, hB]
      rfl
    have l1 : write_node_list env ⟨"(", []⟩ [A, conn, B]
        = .ok ⟨"(" ++ cA.sql ++ connfrag ++ cB.sql, cB.args⟩ := by
      rw [write_node_list_cons_eq, s1]
      show write_node_list env ⟨"(" ++ cA.sql, cA.args⟩ [conn, B] = _
      rw [write_node_list_cons_eq, hconn]
      show write_node_list env ⟨"(" ++ cA.sql ++ connfrag, cA.args⟩ [B] = _
      rw [write_node_list_cons_eq, s2]
      rfl
    rw [write_node_group_eq]
    show (match write_node_list env ⟨"(", []⟩ [A, conn, B] with
      | Except.ok c => Except.ok { c with sql := c.sql ++ ")" }
      | Except.error e => Except.error e) = _
    rw [l1]
  exact ⟨key Node.And " and " (fun s a => rfl), key Node.Or " or " (fun s a => rfl)⟩

/-- C7 counterexample: under a catalog with two note types both having a
`Front` field, `Group [A, And, B]` for two single-field leaves does not equal
`"(" ++ compile(A) ++ " and " ++ compile(B) ++ ")"` built from the standalone
compilations: `B` standalone numbers its placeholder `?1`, but inside the
group (after `A` pushed a parameter) it is numbered `?2`. -/
theorem group_concat_counterexample :
    node_to_sql envTwoFront (Node.Search (SearchNode.SingleField "Front" "va")) =
      .ok ("((n.mid = 1 and field_at_index(n.flds, 0) like ?1)(n.mid = 2 and field_at_index(n.flds, 0) like ?1))",
        ["va"])
    ∧ node_to_sql envTwoFront (Node.Search (SearchNode.SingleField "Front" "vb")) =
      .ok ("((n.mid = 1 and field_at_index(n.flds, 0) like ?1)(n.mid = 2 and field_at_index(n.flds, 0) like ?1))",
        ["vb"])
    ∧ node_to_sql envTwoFront (Node.Group [Node.Search (SearchNode.SingleField "Front" "va"),
        Node.And, Node.Search (SearchNode.SingleField "Front" "vb")]) =
      .ok ("(((n.mid = 1 and field_at_index(n.flds, 0) like ?1)(n.mid = 2 and field_at_index(n.flds, 0) like ?1)) and ((n.mid = 1 and field_at_index(n.flds, 0) like ?2)(n.mid = 2 and field_at_index(n.flds, 0) like ?2)))",
        ["va", "vb"])
    ∧ ("(((n.mid = 1 and field_at_index(n.flds, 0) like ?1)(n.mid = 2 and field_at_index(n.flds, 0) like ?1)) and ((n.mid = 1 and field_at_index(n.flds, 0) like ?2)(n.mid = 2 and field_at_index(n.flds, 0) like ?2)))" : String)
      ≠ "(" ++ "((n.mid = 1 and field_at_index(n.flds, 0) like ?1)(n.mid = 2 and field_at_index(n.flds, 0) like ?1))"
          ++ " and "
          ++ "((n.mid = 1 and field_at_index(n.flds, 0) like ?1)(n.mid = 2 and field_at_index(n.flds, 0) like ?1))"
          ++ ")" := by
  refine ⟨rfl, rfl, rfl, by decide⟩

/-- Witness for C7 at two tag leaves under `envA`. -/
theorem group_connector_concat_witness :
    write_node_to_sql envA ⟨"", []⟩ (Node.Group [Node.Search (SearchNode.Tag "x"), Node.And,
        Node.Search (SearchNode.Tag "y")]) =
      .ok ⟨"(" ++ "n.tags like ?" ++ " and " ++ "n.tags like ?" ++ ")", [" %x% ", " %y% "]⟩
    ∧ write_node_to_sql envA ⟨"", []⟩ (Node.Group [Node.Search (SearchNode.Tag "x"), Node.Or,
        Node.Search (SearchNode.Tag "y")]) =
      .ok ⟨"(" ++ "n.tags like ?" ++ " or " ++ "n.tags like ?" ++ ")", [" %x% ", " %y% "]⟩ :=
  group_connector_concat envA (Node.Search (SearchNode.Tag "x")) (Node.Search (SearchNode.Tag "y"))
    ⟨"n.tags like ?", [" %x% "]⟩ ⟨"n.tags like ?", [" %x% ", " %y% "]⟩ rfl rfl

/-- Flush a pending placeholder token: `some ds` is a `?` read together with
the digits `ds` that followed it. -/
def phFlush : Option (List Char) → List (List Char)
  | none => []
  | some ds => [('?' :: ds)]

/-- Scan a character list for placeholder tokens: a `?` optionally followed
by a maximal run of digits.  Returns the token list in order; a plain `?`
yields `['?']` and `?123` yields `['?','1','2','3']`. -/
def phAux : Option (List Char) → List Char → List (List Char)
  | pend, [] => phFlush pend
  | pend, c :: cs =>
    if c = '?' then phFlush pend ++ phAux (some []) cs
    else if c.isDigit then
      match pend with
      | some ds => phAux (some (ds ++ [c])) cs
      | none => phAux none cs
    else phFlush pend ++ phAux none cs

/-- The placeholder tokens of a predicate text, in left-to-right order. -/
def phTokens (s : String) : List (List Char) := phAux none s.data

/-- Whether a character list does not start with a digit (so that appending
it after another text cannot extend a numbered placeholder). -/
def headNotDigit (l : List Char) : Bool :=
  match l with
  | [] => true
  | c :: _ => !c.isDigit

theorem phAux_cons (pend : Option (List Char)) (c : Char) (cs : List Char) :
    phAux pend (c :: cs) =
      if c = '?' then phFlush pend ++ phAux (some []) cs
      else if c.isDigit then
        match pend with
        | some ds => phAux (some (ds ++ [c])) cs
        | none => phAux none cs
      else phFlush pend ++ phAux none cs := rfl

theorem phAux_append : ∀ (a : List Char) (pend : Option (List Char)) (b : List Char),
    headNotDigit b = true → phAux pend (a ++ b) = phAux pend a ++ phAux none b
  | [], pend, b, hb => by
    cases b with
    | nil => simp [phAux, phFlush]
    | cons c cs =>
      have hd : c.isDigit = false := by simpa [headNotDigit] using hb
      by_cases hq : c = '?'
      · subst hq
        show phAux pend ('?' :: cs) = phAux pend [] ++ phAux none ('?' :: cs)
        rw [phAux_cons, phAux_cons, if_pos rfl, if_pos rfl]
        show phFlush pend ++ phAux (some []) cs = phFlush pend ++ (phFlush none ++ _)
        rfl
      · show phAux pend (c :: cs) = phAux pend [] ++ phAux none (c :: cs)
        rw [phAux_cons, phAux_cons, if_neg hq, if_neg hq, if_neg (by simp [hd]),
          if_neg (by simp [hd])]
        rfl
  | x :: xs, pend, b, hb => by
    by_cases hq : x = '?'
    · subst hq
      rw [List.cons_append, phAux_cons, phAux_cons, if_pos rfl, if_pos rfl,
        phAux_append xs (some []) b hb, List.append_assoc]
    · by_cases hd : x.isDigit
      · cases pend with
        | some ds =>
          rw [List.cons_append, phAux_cons, phAux_cons, if_neg hq, if_neg hq,
            if_pos hd, if_pos hd]
          exact phAux_append xs (some (ds ++ [x])) b hb
        | none =>
          rw [List.cons_append, phAux_cons, phAux_cons, if_neg hq, if_neg hq,
            if_pos hd, if_pos hd]
          exact phAux_append xs none b hb
      · rw [List.cons_append, phAux_cons, phAux_cons, if_neg hq, if_neg hq,
          if_neg hd, if_neg hd, phAux_append xs none b hb, List.append_assoc]

theorem phAux_noq : ∀ (a : List Char), '?' ∉ a → ∀ (b : List Char),
    phAux none (a ++ b) = phAux none b
  | [], _, b => rfl
  | x :: xs, ha, b => by
    have hq : ¬(x = '?') := fun h => ha (h ▸ List.mem_cons_self x xs)
    have ha' : '?' ∉ xs := fun h => ha (List.mem_cons_of_mem x h)
    by_cases hd : x.isDigit
    · rw [List.cons_append, phAux_cons, if_neg hq, if_pos hd]
      exact phAux_noq xs ha' b
    · rw [List.cons_append, phAux_cons, if_neg hq, if_neg hd]
      show phFlush none ++ phAux none (xs ++ b) = _
      rw [phAux_noq xs ha' b]
      rfl

theorem phTokens_nil_of_noq (s : String) (h : '?' ∉ s.data) : phTokens s = [] := by
  have := phAux_noq s.data h []
  rw [List.append_nil] at this
  exact this

theorem phAux_digits : ∀ (digs ds rest : List Char), (∀ c ∈ digs, c.isDigit = true) →
    phAux (some ds) (digs ++ rest) = phAux (some (ds ++ digs)) rest
  | [], ds, rest, _ => by
    rw [List.append_nil]
    rfl
  | c :: t, ds, rest, h => by
    have hd : c.isDigit = true := h c (List.mem_cons_self c t)
    have hq : ¬(c = '?') := by
      intro hc
      subst hc
      exact absurd hd (by decide)
    rw [List.cons_append, phAux_cons, if_neg hq, if_pos hd]
    show phAux (some (ds ++ [c])) (t ++ rest) = _
    rw [phAux_digits t (ds ++ [c]) rest (fun x hx => h x (List.mem_cons_of_mem c hx)),
      List.append_assoc]
    rfl

theorem digitChar_isDigit (m : Nat) (h : m < 10) : (Nat.digitChar m).isDigit = true := by
  interval_cases m <;> decide

theorem toDigitsCore_all (P : Char → Prop) (hP : ∀ m, m < 10 → P (Nat.digitChar m)) :
    ∀ (fuel n : Nat) (acc : List Char), (∀ c ∈ acc, P c) →
      ∀ c ∈ Nat.toDigitsCore 10 fuel n acc, P c := by
  intro fuel
  induction fuel with
  | zero =>
    intro n acc hacc c hc
    exact hacc c hc
  | succ f ih =>
    intro n acc hacc c hc
    simp only [Nat.toDigitsCore] at hc
    split at hc
    · rcases List.mem_cons.mp hc with h1 | h1
      · exact h1 ▸ hP (n % 10) (Nat.mod_lt n (by decide))
      · exact hacc c h1
    · refine ih (n / 10) (Nat.digitChar (n % 10) :: acc) ?_ c hc
      intro x hx
      rcases List.mem_cons.mp hx with h1 | h1
      · exact h1 ▸ hP (n % 10) (Nat.mod_lt n (by decide))
      · exact hacc x h1

theorem nat_toString_digits (n : Nat) : ∀ c ∈ (toString n).data, c.isDigit = true := by
  intro c hc
  refine toDigitsCore_all (fun c => c.isDigit = true)
    (fun m hm => digitChar_isDigit m hm) (n + 1) n [] (by simp) c ?_
  simpa [toString, Nat.repr, Nat.toDigits, List.asString] using hc

theorem noq_nat_toString (n : Nat) : '?' ∉ (toString n).data := by
  intro h
  exact absurd (nat_toString_digits n '?' h) (by decide)

theorem noq_int_toString (i : Int) : '?' ∉ (toString i).data := by
  cases i with
  | ofNat m => exact noq_nat_toString m
  | negSucc m =>
    show '?' ∉ ("-" ++ toString (m + 1)).data
    rw [String.data_append]
    intro h
    rcases List.mem_append.mp h with h1 | h1
    · exact absurd h1 (by decide)
    · exact noq_nat_toString (m + 1) h1

theorem noq_append {a b : String} (ha : '?' ∉ a.data) (hb : '?' ∉ b.data) :
    '?' ∉ (a ++ b).data := by
  rw [String.data_append]
  intro h
  rcases List.mem_append.mp h with h1 | h1
  exacts [ha h1, hb h1]

theorem phAux_noq_str (a : String) (ha : '?' ∉ a.data) (b : List Char) :
    phAux none (a.data ++ b) = phAux none b := phAux_noq a.data ha b

theorem headNotDigit_append (a b : String) (ha : headNotDigit a.data = true)
    (hne : a.data ≠ []) : headNotDigit (a ++ b).data = true := by
  rw [String.data_append]
  cases hd : a.data with
  | nil => exact absurd hd hne
  | cons c t =>
    rw [hd] at ha
    simpa [headNotDigit] using ha

/-- The group of placeholder tokens standing for the `i`-th bound value:
either a single plain `?` or a nonempty run of copies of `?i`. -/
def ArgRun (i : Nat) (run : List (List Char)) : Prop :=
  run = [['?']] ∨ (run ≠ [] ∧ ∀ tok ∈ run, tok = '?' :: (toString i).data)

/-- The runs, in order, stand for the values numbered `i`, `i+1`, ... -/
def RunsFrom : Nat → List (List (List Char)) → Prop
  | _, [] => True
  | i, r :: rs => ArgRun i r ∧ RunsFrom (i + 1) rs

/-- The amended C1 invariant: the placeholder tokens of the text split into
one group per bound value, in the order of the bound-parameter list. -/
def PlaceholderInv (sql : String) (args : List String) : Prop :=
  ∃ runs : List (List (List Char)),
    phTokens sql = runs.flatten ∧ runs.length = args.length ∧ RunsFrom 1 runs

theorem RunsFrom_append : ∀ (xs ys : List (List (List Char))) (i : Nat),
    RunsFrom i xs → RunsFrom (i + xs.length) ys → RunsFrom i (xs ++ ys)
  | [], ys, i, _, hys => by simpa using hys
  | x :: xs, ys, i, hxs, hys => by
    refine ⟨hxs.1, RunsFrom_append xs ys (i + 1) hxs.2 ?_⟩
    have he : i + (x :: xs).length = (i + 1) + xs.length := by
      simp [List.length_cons]
      omega
    rw [he] at hys
    exact hys

theorem inv_extend (sql : String) (args : List String) (frag : String)
    (newArgs : List String) (newRuns : List (List (List Char)))
    (hinv : PlaceholderInv sql args)
    (hhead : headNotDigit frag.data = true)
    (htokens : phTokens frag = newRuns.flatten)
    (hlen : newRuns.length = newArgs.length)
    (hruns : RunsFrom (args.length + 1) newRuns) :
    PlaceholderInv (sql ++ frag) (args ++ newArgs) := by
  obtain ⟨runs, htok, hrlen, hrf⟩ := hinv
  refine ⟨runs ++ newRuns, ?_, ?_, ?_⟩
  · show phAux none (sql ++ frag).data = _
    rw [String.data_append, phAux_append sql.data none frag.data hhead]
    show phTokens sql ++ phTokens frag = _
    rw [htok, htokens, List.flatten_append]
  · simp [hrlen, hlen]
  · refine RunsFrom_append runs newRuns 1 hrf ?_
    rw [hrlen, Nat.add_comm]
    exact hruns

theorem inv_extend_noq (sql : String) (args : List String) (frag : String)
    (hinv : PlaceholderInv sql args)
    (hhead : headNotDigit frag.data = true)
    (hnoq : '?' ∉ frag.data) :
    PlaceholderInv (sql ++ frag) args := by
  have h := inv_extend sql args frag [] [] hinv hhead
    (by rw [phTokens_nil_of_noq frag hnoq]; rfl) rfl trivial
  rw [List.append_nil] at h
  exact h

theorem qnum_tokens (k : Nat) (rest : List Char) :
    phAux none ('?' :: ((toString k).data ++ (')' :: rest))) =
      ('?' :: (toString k).data) :: phAux none rest := by
  rw [phAux_cons, if_pos rfl]
  show phAux (some []) ((toString k).data ++ (')' :: rest)) = _
  rw [phAux_digits ((toString k).data) [] (')' :: rest) (nat_toString_digits k)]
  rw [phAux_cons, if_neg (by decide), if_neg (by decide)]
  rfl

theorem sfBranch_tokens (k : Nat) (p : Int × Nat) (rest : List Char) :
    phAux none ((sfBranch k p).data ++ rest) =
      ('?' :: (toString k).data) :: phAux none rest := by
  show phAux none (("(n.mid = " ++ (toString p.1 ++ (" and field_at_index(n.flds, "
      ++ (toString p.2 ++ (") like ?" ++ (toString k ++ ")")))))).data ++ rest) = _
  rw [String.data_append, List.append_assoc, phAux_noq_str "(n.mid = " (by decide),
    String.data_append, List.append_assoc, phAux_noq_str (toString p.1) (noq_int_toString p.1),
    String.data_append, List.append_assoc,
    phAux_noq_str " and field_at_index(n.flds, " (by decide),
    String.data_append, List.append_assoc, phAux_noq_str (toString p.2) (noq_nat_toString p.2),
    String.data_append, List.append_assoc,
    show (") like ?" : String).data = ") like ".data ++ ['?'] from by decide,
    List.append_assoc, phAux_noq_str ") like " (by decide),
    String.data_append, List.append_assoc]
  show phAux none ('?' :: ((toString k).data ++ (')' :: rest))) = _
  exact qnum_tokens k rest

theorem sfBranches_tokens (k : Nat) : ∀ (l : List (Int × Nat)) (rest : List Char),
    phAux none ((sfBranches k l).data ++ rest) =
      List.replicate l.length ('?' :: (toString k).data) ++ phAux none rest
  | [], rest => rfl
  | p :: t, rest => by
    show phAux none ((sfBranch k p ++ sfBranches k t).data ++ rest) = _
    rw [String.data_append, List.append_assoc, sfBranch_tokens k p _,
      sfBranches_tokens k t rest]
    rfl

theorem dupes_frag_tokens (ntid : Int) (csum : Nat) :
    phTokens ("(n.mid = " ++ (toString ntid ++ (" and n.csum = "
      ++ (toString csum ++ " and field_at_index(n.flds, 0) = ?")))) = [['?']] := by
  show phAux none _ = _
  rw [String.data_append, phAux_noq_str _ (by decide), String.data_append,
    phAux_noq_str _ (noq_int_toString ntid), String.data_append,
    phAux_noq_str _ (by decide), String.data_append,
    phAux_noq_str _ (noq_nat_toString csum)]
  decide

/-- The trusted-literal contract of spec §9 expressed on a leaf: raw id-list
payloads (inserted into the text verbatim) and property operators contain no
placeholder character. -/
def leafSqlSafe : SearchNode → Bool
  | SearchNode.NoteIDs s => !s.data.contains '?'
  | SearchNode.CardIDs s => !s.data.contains '?'
  | SearchNode.Property op _ => !op.data.contains '?'
  | _ => true

mutual

/-- `leafSqlSafe` over a whole tree. -/
def sqlSafe : Node → Bool
  | Node.Not n => sqlSafe n
  | Node.Group ns => sqlSafeList ns
  | Node.Search s => leafSqlSafe s
  | _ => true

/-- List form of `sqlSafe`. -/
def sqlSafeList : List Node → Bool
  | [] => true
  | n :: rest => sqlSafe n && sqlSafeList rest

end

theorem noq_of_safe {s : String} (h : (!s.data.contains '?') = true) : '?' ∉ s.data := by
  intro hm
  rw [Bool.not_eq_true'] at h
  exact absurd (List.elem_eq_true_of_mem hm) (by simp [List.contains] at h; simp [h])

theorem noq_intercalate_go : ∀ (l : List String) (acc : String), '?' ∉ acc.data →
    (∀ x ∈ l, '?' ∉ x.data) → '?' ∉ (String.intercalate.go acc "," l).data
  | [], _, hacc, _ => hacc
  | a :: as, acc, hacc, hl =>
    noq_intercalate_go as ((acc ++ ",") ++ a)
      (noq_append (noq_append hacc (by decide)) (hl a (List.mem_cons_self a as)))
      (fun x hx => hl x (List.mem_cons_of_mem a hx))

theorem noq_intercalate (l : List String) (hl : ∀ x ∈ l, '?' ∉ x.data) :
    '?' ∉ (String.intercalate "," l).data := by
  cases l with
  | nil => decide
  | cons a as =>
    exact noq_intercalate_go as a (hl a (List.mem_cons_self a as))
      (fun x hx => hl x (List.mem_cons_of_mem a hx))

theorem foldl_append_forall {α β : Type} (g : α → List β) (P : β → Prop)
    (hg : ∀ a, ∀ y ∈ g a, P y) : ∀ (l : List α) (acc : List β), (∀ y ∈ acc, P y) →
      ∀ y ∈ l.foldl (fun acc a => acc ++ g a) acc, P y
  | [], _, hacc => hacc
  | a :: t, acc, hacc =>
    foldl_append_forall g P hg t (acc ++ g a)
      (fun y hy => (List.mem_append.mp hy).elim (hacc y) (hg a y))

theorem noq_comma_foldl {T : Type} [ToString T] (hT : ∀ x : T, '?' ∉ (toString x).data) :
    ∀ (l : List T) (b : String), '?' ∉ b.data →
      '?' ∉ (l.foldl (fun b id => b ++ toString id ++ ",") b).data
  | [], _, hb => hb
  | x :: t, b, hb =>
    noq_comma_foldl hT t ((b ++ toString x) ++ ",")
      (noq_append (noq_append hb (hT x)) (by decide))

theorem noq_ids_to_string (buf : String) (ids : List Int) (hb : '?' ∉ buf.data) :
    '?' ∉ (ids_to_string buf ids).data := by
  cases ids with
  | nil => exact noq_append hb (by decide)
  | cons first rest =>
    exact noq_append (noq_append
      (noq_comma_foldl noq_int_toString rest (buf ++ "(") (noq_append hb (by decide)))
      (noq_int_toString first)) (by decide)

theorem ids_to_string_split (buf : String) (ids : List Int) :
    ids_to_string buf ids = buf ++ ids_to_string "" ids := by
  have h := ids_to_string_shift buf "" ids
  rw [String.append_empty] at h
  exact h

mutual

/-- Invariant preservation: every compilation step keeps the placeholder-run
correspondence between the text and the parameter list, for trees respecting
the trusted-literal contract. -/
theorem placeholder_inv_step (env : Env) : ∀ (node : Node) (ctx ctx' : SearchContext),
    sqlSafe node = true → write_node_to_sql env ctx node = .ok ctx' →
    PlaceholderInv ctx.sql ctx.args → PlaceholderInv ctx'.sql ctx'.args
  | Node.And, ctx, ctx', _, hok, hinv => by
    have hok' : Except.ok { ctx with sql := ctx.sql ++ " and " } = Except.ok ctx' := hok
    injection hok' with h
    subst h
    exact inv_extend_noq ctx.sql ctx.args " and " hinv (by decide) (by decide)
  | Node.Or, ctx, ctx', _, hok, hinv => by
    have hok' : Except.ok { ctx with sql := ctx.sql ++ " or " } = Except.ok ctx' := hok
    injection hok' with h
    subst h
    exact inv_extend_noq ctx.sql ctx.args " or " hinv (by decide) (by decide)
  | Node.Not n, ctx, ctx', hsafe, hok, hinv =>
    placeholder_inv_step env n { ctx with sql := ctx.sql ++ "not " } ctx' hsafe hok
      (inv_extend_noq ctx.sql ctx.args "not " hinv (by decide) (by decide))
  | Node.Group ns, ctx, ctx', hsafe, hok, hinv => by
    rw [write_node_group_eq] at hok
    cases hres : write_node_list env { ctx with sql := ctx.sql ++ "(" } ns with
    | error e =>
      rw [hres] at hok
      exact Except.noConfusion hok
    | ok c =>
      rw [hres] at hok
      injection hok with h
      subst h
      have hmid : PlaceholderInv c.sql c.args :=
        placeholder_inv_step_list env ns _ c hsafe hres
          (inv_extend_noq ctx.sql ctx.args "(" hinv (by decide) (by decide))
      exact inv_extend_noq c.sql c.args ")" hmid (by decide) (by decide)
  | Node.Search s, ctx, ctx', hsafe, hok, hinv => by
    cases s with
    | UnqualifiedText text =>
      have hok' : Except.ok (write_unqualified ctx text) = Except.ok ctx' := hok
      injection hok' with h
      subst h
      exact inv_extend ctx.sql ctx.args
        "(n.sfld like ? escape '\\' or n.flds like ? escape '\\')"
        ["%" ++ text ++ "%", "%" ++ text ++ "%"] [[['?']], [['?']]] hinv
        (by decide) (by decide) rfl ⟨Or.inl rfl, Or.inl rfl, trivial⟩
    | SingleField field val =>
      have hok' : write_single_field env ctx field val = .ok ctx' := hok
      unfold write_single_field at hok'
      cases hnts : env.all_note_types with
      | error e =>
        rw [hnts, except_error_bind] at hok'
        exact Except.noConfusion hok'
      | ok nts =>
        rw [hnts, except_ok_bind] at hok'
        dsimp only at hok'
        by_cases hfm : (field_map_of nts field).isEmpty = true
        · rw [if_pos hfm] at hok'
          injection hok' with h
          subst h
          exact inv_extend_noq ctx.sql ctx.args "false" hinv (by decide) (by decide)
        · rw [if_neg hfm] at hok'
          rw [single_field_foldl] at hok'
          dsimp only at hok'
          injection hok' with h
          subst h
          have hne : field_map_of nts field ≠ [] := by
            intro hc
            exact hfm (by rw [hc]; rfl)
          have htok : phTokens ("(" ++ (sfBranches (ctx.args.length + 1)
              (field_map_of nts field) ++ ")")) =
              List.replicate (field_map_of nts field).length
                ('?' :: (toString (ctx.args.length + 1)).data) := by
            show phAux none _ = _
            rw [String.data_append, phAux_noq_str "(" (by decide), String.data_append,
              sfBranches_tokens (ctx.args.length + 1) (field_map_of nts field) (")".data),
              show phAux none (")".data) = [] from by decide, List.append_nil]
          have hinv' : PlaceholderInv
              (ctx.sql ++ ("(" ++ (sfBranches (ctx.args.length + 1)
                (field_map_of nts field) ++ ")")))
              (ctx.args ++ [val]) := by
            refine inv_extend ctx.sql ctx.args _ [val]
              [List.replicate (field_map_of nts field).length
                ('?' :: (toString (ctx.args.length + 1)).data)] hinv
              (headNotDigit_append "(" _ (by decide) (by decide))
              (by rw [htok]; simp) rfl ⟨Or.inr ⟨?_, ?_⟩, trivial⟩
            · intro hc
              have := congrArg List.length hc
              simp [List.length_replicate] at this
              exact hne this
            · intro tok htk
              exact List.eq_of_mem_replicate htk
          simpa [String.append_assoc, List.length_append] using hinv'
    | AddedInDays days =>
      have hok' : Except.ok { ctx with sql := ctx.sql ++ "c.id > " ++ toString days }
          = Except.ok ctx' := hok
      injection hok' with h
      subst h
      simpa [String.append_assoc] using inv_extend_noq ctx.sql ctx.args
        ("c.id > " ++ toString days) hinv
        (headNotDigit_append "c.id > " _ (by decide) (by decide))
        (noq_append (by decide) (noq_nat_toString days))
    | CardTemplate tk =>
      cases tk with
      | Ordinal n =>
        have hok' : Except.ok { ctx with sql := ctx.sql ++ "c.ord = " ++ toString n }
            = Except.ok ctx' := hok
        injection hok' with h
        subst h
        simpa [String.append_assoc] using inv_extend_noq ctx.sql ctx.args
          ("c.ord = " ++ toString n) hinv
          (headNotDigit_append "c.ord = " _ (by decide) (by decide))
          (noq_append (by decide) (noq_nat_toString n))
      | Name name =>
        have hok' : write_template env ctx (TemplateKind.Name name) = .ok ctx' := hok
        unfold write_template at hok'
        dsimp only at hok'
        cases hnts : env.all_note_types with
        | error e =>
          rw [hnts, except_error_bind] at hok'
          exact Except.noConfusion hok'
        | ok nts =>
          rw [hnts, except_ok_bind] at hok'
          by_cases hio : (id_ords_of env nts name).isEmpty = true
          · rw [if_pos hio] at hok'
            injection hok' with h
            subst h
            exact inv_extend_noq ctx.sql ctx.args "false" hinv (by decide) (by decide)
          · rw [if_neg hio] at hok'
            injection hok' with h
            subst h
            have hnoqI : '?' ∉ (String.intercalate "," (id_ords_of env nts name)).data := by
              refine noq_intercalate _ ?_
              refine foldl_append_forall
                (fun nt : NoteType => (nt.templates.filter
                  (fun tmpl => env.matches_wildcard tmpl.name name)).map
                  (fun tmpl => "(n.mid = " ++ toString nt.id ++ " and c.ord = "
                    ++ toString tmpl.ord ++ ")"))
                (fun y : String => '?' ∉ y.data) ?_ nts [] (by simp)
              intro nt y hy
              rcases List.mem_map.mp hy with ⟨tmpl, -, rfl⟩
              exact noq_append (noq_append (noq_append (noq_append (by decide)
                (noq_int_toString nt.id)) (by decide)) (noq_nat_toString tmpl.ord)) (by decide)
            simpa [String.append_assoc] using inv_extend_noq ctx.sql ctx.args
              ("(" ++ (String.intercalate "," (id_ords_of env nts name) ++ ")")) hinv
              (headNotDigit_append "(" _ (by decide) (by decide))
              (noq_append (by decide) (noq_append hnoqI (by decide)))
    | Deck d =>
      have hok' : write_deck env ctx d = .ok ctx' := hok
      unfold write_deck at hok'
      by_cases h1 : d = "*"
      · rw [if_pos h1] at hok'
        injection hok' with h
        subst h
        exact inv_extend_noq ctx.sql ctx.args "true" hinv (by decide) (by decide)
      · rw [if_neg h1] at hok'
        by_cases h2 : d = "filtered"
        · rw [if_pos h2] at hok'
          injection hok' with h
          subst h
          exact inv_extend_noq ctx.sql ctx.args "c.odid > 0" hinv (by decide) (by decide)
        · rw [if_neg h2] at hok'
          cases hds : env.all_decks with
          | error e =>
            rw [hds, except_error_bind] at hok'
            exact Except.noConfusion hok'
          | ok ds =>
            rw [hds, except_ok_bind] at hok'
            by_cases h3 : (d == "current") = true
            · rw [if_pos h3] at hok'
              cases hcf : env.all_config with
              | error e =>
                rw [hcf, except_error_bind] at hok'
                exact Except.noConfusion hok'
              | ok cfg =>
                rw [hcf, except_ok_bind] at hok'
                cases hgd : get_deck ds cfg.current_deck_id with
                | none =>
                  rw [hgd] at hok'
                  dsimp only at hok'
                  rw [except_error_bind] at hok'
                  exact Except.noConfusion hok'
                | some current =>
                  rw [hgd] at hok'
                  dsimp only at hok'
                  rw [except_ok_bind] at hok'
                  injection hok' with h
                  subst h
                  show PlaceholderInv (ids_to_string (ctx.sql ++ "c.did in ") _) ctx.args
                  rw [ids_to_string_shift ctx.sql "c.did in "]
                  refine inv_extend_noq ctx.sql ctx.args _ hinv ?_
                    (noq_ids_to_string "c.did in " _ (by decide))
                  rw [ids_to_string_split]
                  exact headNotDigit_append "c.did in " _ (by decide) (by decide)
            · rw [if_neg h3] at hok'
              dsimp only at hok'
              rw [except_ok_bind] at hok'
              injection hok' with h
              subst h
              show PlaceholderInv (ids_to_string (ctx.sql ++ "c.did in ") _) ctx.args
              rw [ids_to_string_shift ctx.sql "c.did in "]
              refine inv_extend_noq ctx.sql ctx.args _ hinv ?_
                (noq_ids_to_string "c.did in " _ (by decide))
              rw [ids_to_string_split]
              exact headNotDigit_append "c.did in " _ (by decide) (by decide)
    | NoteTypeID ntid =>
      have hok' : Except.ok { ctx with sql := ctx.sql ++ "n.mid = " ++ toString ntid }
          = Except.ok ctx' := hok
      injection hok' with h
      subst h
      simpa [String.append_assoc] using inv_extend_noq ctx.sql ctx.args
        ("n.mid = " ++ toString ntid) hinv
        (headNotDigit_append "n.mid = " _ (by decide) (by decide))
        (noq_append (by decide) (noq_int_toString ntid))
    | NoteType name =>
      have hok' : write_note_type env ctx name = .ok ctx' := hok
      unfold write_note_type at hok'
      cases hnts : env.all_note_types with
      | error e =>
        rw [hnts, except_error_bind] at hok'
        exact Except.noConfusion hok'
      | ok nts =>
        rw [hnts, except_ok_bind] at hok'
        dsimp only at hok'
        injection hok' with h
        subst h
        show PlaceholderInv (ids_to_string (ctx.sql ++ "n.mid in ") _) ctx.args
        rw [ids_to_string_shift ctx.sql "n.mid in "]
        refine inv_extend_noq ctx.sql ctx.args _ hinv ?_
          (noq_ids_to_string "n.mid in " _ (by decide))
        rw [ids_to_string_split]
        exact headNotDigit_append "n.mid in " _ (by decide) (by decide)
    | Rated days ease =>
      have hok' : write_rated env ctx days ease = .ok ctx' := hok
      unfold write_rated at hok'
      cases htm : env.timing_today with
      | error e =>
        rw [htm, except_error_bind] at hok'
        exact Except.noConfusion hok'
      | ok t =>
        rw [htm, except_ok_bind] at hok'
        dsimp only at hok'
        cases ease with
        | some e =>
          dsimp only at hok'
          injection hok' with h
          subst h
          simpa [String.append_assoc] using inv_extend_noq ctx.sql ctx.args
            ("c.id in (select cid from revlog where id>"
              ++ (toString (t.next_day_at - 86400 * ((min days 31 : Nat) : Int))
                ++ ("and ease=" ++ (toString e ++ ")")))) hinv
            (headNotDigit_append "c.id in (select cid from revlog where id>" _
              (by decide) (by decide))
            (noq_append (by decide) (noq_append (noq_int_toString _)
              (noq_append (by decide) (noq_append (noq_nat_toString e) (by decide)))))
        | none =>
          dsimp only at hok'
          injection hok' with h
          subst h
          simpa [String.append_assoc] using inv_extend_noq ctx.sql ctx.args
            ("c.id in (select cid from revlog where id>"
              ++ (toString (t.next_day_at - 86400 * ((min days 31 : Nat) : Int)) ++ ")")) hinv
            (headNotDigit_append "c.id in (select cid from revlog where id>" _
              (by decide) (by decide))
            (noq_append (by decide) (noq_append (noq_int_toString _) (by decide)))
    | Tag tag =>
      have hok' : Except.ok (write_tag ctx tag) = Except.ok ctx' := hok
      injection hok' with h
      subst h
      show PlaceholderInv (write_tag ctx tag).sql (write_tag ctx tag).args
      unfold write_tag
      by_cases ht : (tag == "none") = true
      · rw [if_pos ht]
        exact inv_extend_noq ctx.sql ctx.args "n.tags = ''" hinv (by decide) (by decide)
      · rw [if_neg ht]
        dsimp only
        exact inv_extend ctx.sql ctx.args "n.tags like ?"
          [" %" ++ String.mk (tag.data.map (fun c => if c = '*' then '%' else c)) ++ "% "]
          [[['?']]] hinv (by decide) (by decide) rfl ⟨Or.inl rfl, trivial⟩
    | Duplicates ntid text =>
      have hok' : Except.ok (write_dupes env ctx ntid text) = Except.ok ctx' := hok
      injection hok' with h
      subst h
      show PlaceholderInv (write_dupes env ctx ntid text).sql (write_dupes env ctx ntid text).args
      unfold write_dupes
      dsimp only
      simpa [String.append_assoc] using inv_extend ctx.sql ctx.args
        ("(n.mid = " ++ (toString ntid ++ (" and n.csum = "
          ++ (toString (env.field_checksum (env.strip_html_preserving_image_filenames text))
            ++ " and field_at_index(n.flds, 0) = ?")))) [text] [[['?']]] hinv
        (headNotDigit_append "(n.mid = " _ (by decide) (by decide))
        (by rw [dupes_frag_tokens]; rfl) rfl ⟨Or.inl rfl, trivial⟩
    | State st =>
      have hok' : write_state env ctx st = .ok ctx' := hok
      unfold write_state at hok'
      cases htm : env.timing_today with
      | error e =>
        rw [htm, except_error_bind] at hok'
        exact Except.noConfusion hok'
      | ok t =>
        rw [htm, except_ok_bind] at hok'
        cases st with
        | New =>
          injection hok' with h
          subst h
          simpa [String.append_assoc] using inv_extend_noq ctx.sql ctx.args
            ("c.queue = " ++ toString env.queue_new) hinv
            (headNotDigit_append "c.queue = " _ (by decide) (by decide))
            (noq_append (by decide) (noq_nat_toString _))
        | Review =>
          injection hok' with h
          subst h
          simpa [String.append_assoc] using inv_extend_noq ctx.sql ctx.args
            ("c.queue = " ++ toString env.queue_review) hinv
            (headNotDigit_append "c.queue = " _ (by decide) (by decide))
            (noq_append (by decide) (noq_nat_toString _))
        | Learning =>
          injection hok' with h
          subst h
          simpa [String.append_assoc] using inv_extend_noq ctx.sql ctx.args
            ("c.queue in (" ++ (toString env.queue_learn ++ (","
              ++ (toString env.queue_day_learn ++ ")")))) hinv
            (headNotDigit_append "c.queue in (" _ (by decide) (by decide))
            (noq_append (by decide) (noq_append (noq_nat_toString _)
              (noq_append (by decide) (noq_append (noq_nat_toString _) (by decide)))))
        | Buried =>
          injection hok' with h
          subst h
          simpa [String.append_assoc] using inv_extend_noq ctx.sql ctx.args
            ("c.queue in (" ++ (toString env.queue_sched_buried ++ (","
              ++ (toString env.queue_user_buried ++ ")")))) hinv
            (headNotDigit_append "c.queue in (" _ (by decide) (by decide))
            (noq_append (by decide) (noq_append (noq_nat_toString _)
              (noq_append (by decide) (noq_append (noq_nat_toString _) (by decide)))))
        | Suspended =>
          injection hok' with h
          subst h
          simpa [String.append_assoc] using inv_extend_noq ctx.sql ctx.args
            ("c.queue = " ++ toString env.queue_suspended) hinv
            (headNotDigit_append "c.queue = " _ (by decide) (by decide))
            (noq_append (by decide) (noq_nat_toString _))
        | Due =>
          injection hok' with h
          subst h
          simpa [String.append_assoc] using inv_extend_noq ctx.sql ctx.args
            ("\n(c.queue in (" ++ (toString env.queue_review ++ (","
              ++ (toString env.queue_day_learn ++ (") and c.due <= "
              ++ (toString t.days_elapsed ++ (") or\n(c.queue = "
              ++ (toString env.queue_learn ++ (" and c.due <= "
              ++ (toString t.next_day_at ++ ")")))))))))) hinv
            (headNotDigit_append "\n(c.queue in (" _ (by decide) (by decide))
            (noq_append (by decide) (noq_append (noq_nat_toString _)
              (noq_append (by decide) (noq_append (noq_nat_toString _)
              (noq_append (by decide) (noq_append (noq_nat_toString _)
              (noq_append (by decide) (noq_append (noq_nat_toString _)
              (noq_append (by decide) (noq_append (noq_int_toString _) (by decide)))))))))))
    | Flag f =>
      have hok' : Except.ok { ctx with sql := ctx.sql ++ "(c.flags & 7) == " ++ toString f }
          = Except.ok ctx' := hok
      injection hok' with h
      subst h
      simpa [String.append_assoc] using inv_extend_noq ctx.sql ctx.args
        ("(c.flags & 7) == " ++ toString f) hinv
        (headNotDigit_append "(c.flags & 7) == " _ (by decide) (by decide))
        (noq_append (by decide) (noq_nat_toString f))
    | NoteIDs nids =>
      have hok' : Except.ok { ctx with sql := ctx.sql ++ "n.id in (" ++ nids ++ ")" }
          = Except.ok ctx' := hok
      injection hok' with h
      subst h
      simpa [String.append_assoc] using inv_extend_noq ctx.sql ctx.args
        ("n.id in (" ++ (nids ++ ")")) hinv
        (headNotDigit_append "n.id in (" _ (by decide) (by decide))
        (noq_append (by decide) (noq_append (noq_of_safe hsafe) (by decide)))
    | CardIDs cids =>
      have hok' : Except.ok { ctx with sql := ctx.sql ++ "c.id in (" ++ cids ++ ")" }
          = Except.ok ctx' := hok
      injection hok' with h
      subst h
      simpa [String.append_assoc] using inv_extend_noq ctx.sql ctx.args
        ("c.id in (" ++ (cids ++ ")")) hinv
        (headNotDigit_append "c.id in (" _ (by decide) (by decide))
        (noq_append (by decide) (noq_append (noq_of_safe hsafe) (by decide)))
    | Property op kind =>
      have hop : '?' ∉ op.data := noq_of_safe hsafe
      have hok' : write_prop env ctx op kind = .ok ctx' := hok
      unfold write_prop at hok'
      cases htm : env.timing_today with
      | error e =>
        rw [htm, except_error_bind] at hok'
        exact Except.noConfusion hok'
      | ok t =>
        rw [htm, except_ok_bind] at hok'
        cases kind with
        | Due days =>
          dsimp only at hok'
          injection hok' with h
          subst h
          simpa [String.append_assoc] using inv_extend_noq ctx.sql ctx.args
            ("(c.queue in (" ++ (toString env.queue_review ++ (","
              ++ (toString env.queue_day_learn ++ (") and due "
              ++ (op ++ (" " ++ (toString (days + (t.days_elapsed : Int)) ++ ")")))))))) hinv
            (headNotDigit_append "(c.queue in (" _ (by decide) (by decide))
            (noq_append (by decide) (noq_append (noq_nat_toString _)
              (noq_append (by decide) (noq_append (noq_nat_toString _)
              (noq_append (by decide) (noq_append hop
              (noq_append (by decide) (noq_append (noq_int_toString _) (by decide)))))))))
        | Interval ivl =>
          injection hok' with h
          subst h
          simpa [String.append_assoc] using inv_extend_noq ctx.sql ctx.args
            ("ivl " ++ (op ++ (" " ++ toString ivl))) hinv
            (headNotDigit_append "ivl " _ (by decide) (by decide))
            (noq_append (by decide) (noq_append hop
              (noq_append (by decide) (noq_nat_toString ivl))))
        | Reps reps =>
          injection hok' with h
          subst h
          simpa [String.append_assoc] using inv_extend_noq ctx.sql ctx.args
            ("reps " ++ (op ++ (" " ++ toString reps))) hinv
            (headNotDigit_append "reps " _ (by decide) (by decide))
            (noq_append (by decide) (noq_append hop
              (noq_append (by decide) (noq_nat_toString reps))))
        | Lapses days =>
          injection hok' with h
          subst h
          simpa [String.append_assoc] using inv_extend_noq ctx.sql ctx.args
            ("lapses " ++ (op ++ (" " ++ toString days))) hinv
            (headNotDigit_append "lapses " _ (by decide) (by decide))
            (noq_append (by decide) (noq_append hop
              (noq_append (by decide) (noq_nat_toString days))))
        | Ease e =>
          injection hok' with h
          subst h
          simpa [String.append_assoc] using inv_extend_noq ctx.sql ctx.args
            ("ease " ++ (op ++ (" " ++ toString (rat_as_u32 (e * 1000))))) hinv
            (headNotDigit_append "ease " _ (by decide) (by decide))
            (noq_append (by decide) (noq_append hop
              (noq_append (by decide) (noq_nat_toString _))))

/-- List form of `placeholder_inv_step`. -/
theorem placeholder_inv_step_list (env : Env) : ∀ (ns : List Node) (ctx ctx' : SearchContext),
    sqlSafeList ns = true → write_node_list env ctx ns = .ok ctx' →
    PlaceholderInv ctx.sql ctx.args → PlaceholderInv ctx'.sql ctx'.args
  | [], ctx, ctx', _, hok, hinv => by
    have hok' : Except.ok ctx = Except.ok ctx' := hok
    injection hok' with h
    subst h
    exact hinv
  | n :: rest, ctx, ctx', hsafe, hok, hinv => by
    have hs : sqlSafe n = true ∧ sqlSafeList rest = true := by
      simpa [sqlSafeList, Bool.and_eq_true] using hsafe
    rw [write_node_list_cons_eq] at hok
    cases hres : write_node_to_sql env ctx n with
    | error e =>
      rw [hres] at hok
      exact Except.noConfusion hok
    | ok c =>
      rw [hres] at hok
      exact placeholder_inv_step_list env rest c ctx' hs.2 hok
        (placeholder_inv_step env n ctx c hs.1 hres hinv)

end

/-- C1 (amended): for every expression tree respecting the trusted-literal
contract (raw id-list payloads and property operators free of `?`), the
placeholder tokens of the compiled text split, in left-to-right order, into
one group per bound value, in the order of the bound-parameter list: the
group for the `i`-th value is a single plain `?` or a nonempty run of copies
of `?i` (repeated once per matched field of a single-field search).  The
count of `?` occurrences thus equals the count of values except that a
multi-match single-field leaf repeats its numbered placeholder. -/
theorem placeholder_runs_invariant (env : Env) (node : Node) (sql : String)
    (args : List String) (hsafe : sqlSafe node = true)
    (h : node_to_sql env node = .ok (sql, args)) :
    PlaceholderInv sql args := by
  cases hres : write_node_to_sql env ⟨"", []⟩ node with
  | error e =>
    unfold node_to_sql at h
    rw [hres] at h
    exact Except.noConfusion h
  | ok c =>
    unfold node_to_sql at h
    rw [hres] at h
    injection h with h2
    have h3 : c.sql = sql := congrArg Prod.fst h2
    have h4 : c.args = args := congrArg Prod.snd h2
    rw [← h3, ← h4]
    exact placeholder_inv_step env node ⟨"", []⟩ c hsafe hres ⟨[], rfl, rfl, trivial⟩

/-- Witness for C1 (amended) at an unqualified-text leaf under `envA`. -/
theorem placeholder_runs_invariant_witness :
    PlaceholderInv "(n.sfld like ? escape '\\' or n.flds like ? escape '\\')"
      ["%x%", "%x%"] :=
  placeholder_runs_invariant envA (Node.Search (SearchNode.UnqualifiedText "x"))
    "(n.sfld like ? escape '\\' or n.flds like ? escape '\\')" ["%x%", "%x%"] rfl rfl

/-- C1 counterexample: when a single-field search matches two fields, the
compiled text holds two placeholder occurrences (two copies of `?1`) while
the bound-parameter list holds one value — the raw occurrence count differs
from the value count. -/
theorem placeholder_count_counterexample :
    node_to_sql envTwoFront (Node.Search (SearchNode.SingleField "Front" "va")) =
      .ok ("((n.mid = 1 and field_at_index(n.flds, 0) like ?1)(n.mid = 2 and field_at_index(n.flds, 0) like ?1))",
        ["va"])
    ∧ (phTokens "((n.mid = 1 and field_at_index(n.flds, 0) like ?1)(n.mid = 2 and field_at_index(n.flds, 0) like ?1))").length = 2
    ∧ (["va"] : List String).length = 1
    ∧ (2 : Nat) ≠ 1 := ⟨rfl, by decide, rfl, by decide⟩

end AnkiSearch
